import Mathlib

/-!
Shallow embedding of the scan-and-round engine of the shopping simulator
(source: src/scanner.ts, class ScannerSystem).  Machine floats of the source
are modelled as exact rationals; the per-tick entry point
ScannerSystem.update(delta, time) becomes the function `update` below, which
returns the successor state together with the list of externally observable
events of that tick.  The presentation layer (HUD textures, toasts, panels,
audio playback) has no algorithmic content and is not modelled; the win and
lose sounds of showRoundComplete are represented by the single round-over
event they accompany.
-/

namespace ShoppingSim

/-- A world position, as read from an object3D via getWorldPosition. -/
structure Vec3 where
  x : ℚ
  y : ℚ
  z : ℚ
deriving DecidableEq

/-- Squared Euclidean distance, as computed by Vector3.distanceToSquared. -/
def distSq (a b : Vec3) : ℚ :=
  (a.x - b.x) * (a.x - b.x) + (a.y - b.y) * (a.y - b.y) + (a.z - b.z) * (a.z - b.z)

/-- One entry of the respawn catalog (field productCatalog of ScannerSystem). -/
structure ProductDef where
  productId : String
  assetKey : String
  scale : ℚ
deriving DecidableEq

/-- The respawn catalog, field productCatalog of ScannerSystem. -/
def productCatalog : List ProductDef :=
  [⟨"redApple", "redApple", 28/100⟩,
   ⟨"pear", "pear", 10/100⟩,
   ⟨"cerealCocoaCritters", "cerealCocoaCritters", 10/1000⟩,
   ⟨"goldBar", "goldBar", 42/100⟩,
   ⟨"shoe", "shoe", 13/10⟩,
   ⟨"industrialShoe", "industrialShoe", 15/10⟩,
   ⟨"chickenFriedRice", "chickenFriedRice", 13/1000⟩,
   ⟨"chickenStrips", "chickenStrips", 125/100⟩,
   ⟨"fleeceJacket", "fleeceJacket", 36/100⟩,
   ⟨"glasses", "glasses", 2/100⟩,
   ⟨"presentBox", "presentBox", 18/100⟩]

/-- Display name and unit price of a product (values of the productInfo record). -/
structure ProductInfo where
  name : String
  price : ℚ
deriving DecidableEq

/-- The price table, field productInfo of ScannerSystem, as an association list. -/
def productInfoList : List (String × ProductInfo) :=
  [("redApple", ⟨"Red Apple", 99/100⟩),
   ("pear", ⟨"Fresh Pear", 109/100⟩),
   ("cerealCocoaCritters", ⟨"Cocoa Critters Cereal", 499/100⟩),
   ("goldBar", ⟨"Gold Bar (Display)", 2999/100⟩),
   ("shoe", ⟨"Running Shoe", 5999/100⟩),
   ("industrialShoe", ⟨"Industrial Work Boot", 8999/100⟩),
   ("chickenFriedRice", ⟨"Frozen Chicken Fried Rice", 749/100⟩),
   ("chickenStrips", ⟨"Crispy Chicken Strips", 899/100⟩),
   ("fleeceJacket", ⟨"Fleece Jacket", 3999/100⟩),
   ("glasses", ⟨"Fashion Glasses", 1999/100⟩),
   ("presentBox", ⟨"Gift Box", 599/100⟩)]

/-- Lookup this.productInfo[productId]; none models an absent key. -/
def productInfo (productId : String) : Option ProductInfo :=
  productInfoList.lookup productId

/-- A trackable object: an entity of the scannables query.  It carries the
Scannable component (productId, lastScanTime, homeX, homeY, homeZ), the
world position of its object3D (none when the object3D is unavailable),
the userData.scannedOut retirement flag, and its visual scale. -/
structure Scannable where
  id : Nat
  productId : String
  lastScanTime : ℚ
  homeX : ℚ
  homeY : ℚ
  homeZ : ℚ
  pos : Option Vec3
  scannedOut : Bool
  scale : ℚ
deriving DecidableEq

/-- A sensor zone: an entity of the scanners query.  radius is the value read
from the ScannerZone component (none models an undefined read, falling back
to config.scanRadius); pos is the world position of its object3D. -/
structure Zone where
  radius : Option ℚ
  pos : Option Vec3
deriving DecidableEq

/-- System config values scanRadius (default 0.25) and scanCooldown (default 0.75). -/
structure Config where
  scanRadius : ℚ
  scanCooldown : ℚ

/-- The default configuration of ScannerSystem. -/
def defaultConfig : Config := ⟨1/4, 3/4⟩

/-- External environment: AssetManager.getGLTF availability per asset key. -/
structure Env where
  gltfOk : String → Bool

/-- Field gameDurationSeconds of ScannerSystem (a 30-second round). -/
def gameDurationSeconds : ℚ := 30

/-- Field goalCartValue of ScannerSystem (level 1 goal, 150 dollars). -/
def goalCartValue : ℚ := 150

/-- The mutable state of ScannerSystem that the scan-and-round engine touches:
the round booleans and counters, the live trackable set, and the random
stream used by spawnRandomProductAt (draws gives the value of the n-th call
of Math.floor(Math.random() * catalog.length), taken modulo the catalog
length; drawIdx counts the calls made so far). -/
structure SysState where
  timeRemaining : ℚ
  timerRunning : Bool
  gameStarted : Bool
  roundEnded : Bool
  roundShown : Bool
  timerWarningPlayed : Bool
  scannedCount : Nat
  totalCartValue : ℚ
  scannables : List Scannable
  nextId : Nat
  draws : Nat → Nat
  drawIdx : Nat

/-- Observable events of one tick.  warn is the 10-second warning sound;
roundOver is the end-of-round notification of showRoundComplete (win or lose
sound plus panel) carrying the outcome and final tallies; scan is a scan
event (cashier beep, pulse, toast) tagged with the index of the emitting
zone and the scanned entity; dropped is a ghost marker recording that the
silent-discard continue branch of the round gate fired for a qualifying
candidate (the source emits nothing there and changes no state). -/
inductive Ev where
  | warn
  | roundOver (won : Bool) (scannedCount : Nat) (total : ℚ)
  | scan (zoneIdx : Nat) (objId : Nat) (productId : String)
  | dropped (zoneIdx : Nat) (objId : Nat)
deriving DecidableEq

/-- Method resetRound of ScannerSystem (HUD refreshes omitted; the trackable
set is untouched). -/
def resetRound (s : SysState) : SysState :=
  { s with
    timeRemaining := gameDurationSeconds
    timerRunning := false
    gameStarted := false
    roundEnded := false
    roundShown := false
    timerWarningPlayed := false
    scannedCount := 0
    totalCartValue := 0 }

/-- Method showRoundComplete of ScannerSystem: guarded by roundShown, it sets
roundShown and roundEnded, evaluates hitGoal = totalCartValue greater or
equal goalCartValue, and notifies once (win or lose sound and panel). -/
def showRoundComplete (s : SysState) : SysState × List Ev :=
  if s.roundShown then (s, [])
  else
    ({ s with roundShown := true, roundEnded := true },
     [Ev.roundOver (decide (goalCartValue ≤ s.totalCartValue)) s.scannedCount s.totalCartValue])

/-- The timer section at the top of ScannerSystem.update: decrement the clock
while running, fire the one-shot 10-second warning on the crossing, and on
reaching zero clamp to 0, stop the clock and run showRoundComplete. -/
def timerPhase (delta : ℚ) (s : SysState) : SysState × List Ev :=
  if s.timerRunning then
    if s.timerWarningPlayed = false ∧ 10 < s.timeRemaining ∧
        s.timeRemaining - delta ≤ 10 ∧ 0 < s.timeRemaining - delta then
      ({ s with timeRemaining := s.timeRemaining - delta, timerWarningPlayed := true }, [Ev.warn])
    else if s.timeRemaining - delta ≤ 0 then
      ((showRoundComplete
          { s with timeRemaining := 0, timerRunning := false }).1,
       (showRoundComplete
          { s with timeRemaining := 0, timerRunning := false }).2)
    else ({ s with timeRemaining := s.timeRemaining - delta }, [])
  else (s, [])

/-- The radius test of the sweep: an object at p is in range of a zone at
zpos exactly when the source does not take the continue of
distSq greater than radiusSq, where radiusSq is the square of the nominal
radius widened by the 1.1 tolerance factor. -/
def posQualifies (zpos : Vec3) (baseRadius : ℚ) (p : Vec3) : Bool :=
  !(decide ((baseRadius * (11/10)) * (baseRadius * (11/10)) < distSq zpos p))

/-- The cooldown gate of the sweep: last greater or equal 0 and
now minus last below cooldown. -/
def cooldownBlocked (now cooldown : ℚ) (o : Scannable) : Bool :=
  decide (0 ≤ o.lastScanTime) && decide (now - o.lastScanTime < cooldown)

/-- The candidate filter of the inner sweep loop: not already scanned this
frame, object3D position resolvable, not scanned out, within the widened
radius, and not blocked by the cooldown.  These are exactly the five
continue tests the source applies before the round gate. -/
def eligible (now cooldown : ℚ) (zpos : Vec3) (baseRadius : ℚ)
    (scannedIds : List Nat) (o : Scannable) : Bool :=
  decide (o.id ∉ scannedIds) && !o.scannedOut &&
  (match o.pos with
   | none => false
   | some p => posQualifies zpos baseRadius p) &&
  !(cooldownBlocked now cooldown o)

/-- One queued respawn: the home slot of a consumed object. -/
structure RespawnReq where
  hx : ℚ
  hy : ℚ
  hz : ℚ
deriving DecidableEq

/-- Accumulator of the proximity sweep: the system state plus the per-frame
scannedThisFrame set (as entity ids), the queued respawns, and the events
emitted so far this tick. -/
structure Sweep where
  s : SysState
  scannedIds : List Nat
  respawns : List RespawnReq
  events : List Ev

/-- The round-start branch of a scan: the first honored scan flips
gameStarted and starts the clock. -/
def startIfNeeded (s : SysState) : SysState :=
  if s.gameStarted = false then { s with gameStarted := true, timerRunning := true } else s

/-- The score update of a scan (spec name recordSale, inlined in the source):
scannedCount increments unconditionally; the price of a known productId is
added to totalCartValue, an unknown id contributes nothing. -/
def recordSale (productId : String) (s : SysState) : SysState :=
  { s with
    scannedCount := s.scannedCount + 1
    totalCartValue := s.totalCartValue +
      (match productInfo productId with
       | some info => info.price
       | none => 0) }

/-- The in-place mutation of a scanned object: lastScanTime stamped with now,
the mesh hidden at (0, -999, 0) and marked scannedOut in userData. -/
def scanUpd (now : ℚ) (o : Scannable) : Scannable :=
  { o with lastScanTime := now, scannedOut := true, pos := some ⟨0, -999, 0⟩ }

/-- The accumulator side of processing an honored scan: start the round if
needed, record the sale, add the entity to scannedThisFrame, queue the
respawn at the home slot, and emit the scan event. -/
def scanAcc (zIdx : Nat) (o : Scannable) (a : Sweep) : Sweep :=
  { s := recordSale o.productId (startIfNeeded a.s)
    scannedIds := a.scannedIds ++ [o.id]
    respawns := a.respawns ++ [⟨o.homeX, o.homeY, o.homeZ⟩]
    events := a.events ++ [Ev.scan zIdx o.id o.productId] }

/-- The inner loop of the sweep for one zone, over the scannables in
iteration order.  An eligible candidate first passes the round gate: with
the clock stopped at zero, a scan restarts an ended round via resetRound,
and is silently discarded (continue) when the round is not flagged ended;
an honored scan then consumes the zone (break), returning the mutated
object in place and leaving the rest of the list unvisited. -/
def sweepObjs (now cooldown : ℚ) (zIdx : Nat) (zpos : Vec3) (baseRadius : ℚ) :
    Sweep → List Scannable → Sweep × List Scannable
  | a, [] => (a, [])
  | a, o :: rest =>
    if eligible now cooldown zpos baseRadius a.scannedIds o then
      if a.s.timerRunning = false ∧ a.s.timeRemaining ≤ 0 then
        if a.s.roundEnded then
          (scanAcc zIdx o { a with s := resetRound a.s }, scanUpd now o :: rest)
        else
          ((sweepObjs now cooldown zIdx zpos baseRadius
              { a with events := a.events ++ [Ev.dropped zIdx o.id] } rest).1,
           o :: (sweepObjs now cooldown zIdx zpos baseRadius
              { a with events := a.events ++ [Ev.dropped zIdx o.id] } rest).2)
      else
        (scanAcc zIdx o a, scanUpd now o :: rest)
    else
      ((sweepObjs now cooldown zIdx zpos baseRadius a rest).1,
       o :: (sweepObjs now cooldown zIdx zpos baseRadius a rest).2)

/-- Reinstall the object list produced by one zone sweep into the state. -/
def installObjs (p : Sweep × List Scannable) : Sweep :=
  { p.1 with s := { p.1.s with scannables := p.2 } }

/-- The outer loop of the sweep, over zones in registration order.  A zone
without a resolvable object3D position is skipped; otherwise its nominal
radius is the ScannerZone radius value, falling back to config.scanRadius. -/
def sweepZones (cfg : Config) (now : ℚ) : Nat → Sweep → List Zone → Sweep
  | _, a, [] => a
  | zIdx, a, z :: rest =>
    match z.pos with
    | none => sweepZones cfg now (zIdx + 1) a rest
    | some zpos =>
      sweepZones cfg now (zIdx + 1)
        (installObjs
          (sweepObjs now cfg.scanCooldown zIdx zpos (z.radius.getD cfg.scanRadius)
            a a.s.scannables)) rest

/-- Method spawnRandomProductAt of ScannerSystem: draw a uniform catalog
index, and when the GLTF of the drawn item resolves, create one fresh
trackable at the given home slot with the drawn productId, the
catalog-defined scale, lastScanTime -1 and a clean userData (not scanned
out).  The draw is consumed even when the asset is missing. -/
def spawnRandomProductAt (env : Env) (hx hy hz : ℚ) (s : SysState) : SysState :=
  if productCatalog.isEmpty then s
  else
    if env.gltfOk (productCatalog.getD (s.draws s.drawIdx % productCatalog.length)
        ⟨"", "", 1⟩).assetKey then
      { s with
        drawIdx := s.drawIdx + 1
        scannables := s.scannables ++
          [{ id := s.nextId
             productId := (productCatalog.getD (s.draws s.drawIdx % productCatalog.length)
               ⟨"", "", 1⟩).productId
             lastScanTime := -1
             homeX := hx, homeY := hy, homeZ := hz
             pos := some ⟨hx, hy, hz⟩
             scannedOut := false
             scale := (productCatalog.getD (s.draws s.drawIdx % productCatalog.length)
               ⟨"", "", 1⟩).scale }]
        nextId := s.nextId + 1 }
    else { s with drawIdx := s.drawIdx + 1 }

/-- The toFixed(3) quantization of a home slot used as the deduplication key
of the respawn flush. -/
def quantKey (r : RespawnReq) : ℤ × ℤ × ℤ :=
  (round (r.hx * 1000), round (r.hy * 1000), round (r.hz * 1000))

/-- The respawn flush loop with its usedSlots set: a slot whose quantized key
was already honored this flush is silently dropped (first wins). -/
def flushGo (env : Env) : List (ℤ × ℤ × ℤ) → SysState → List RespawnReq → SysState
  | _, s, [] => s
  | used, s, r :: rest =>
    if quantKey r ∈ used then flushGo env used s rest
    else flushGo env (quantKey r :: used) (spawnRandomProductAt env r.hx r.hy r.hz s) rest

/-- The spawn block at the end of ScannerSystem.update. -/
def flushRespawns (env : Env) (s : SysState) (rs : List RespawnReq) : SysState :=
  flushGo env [] s rs

/-- Fresh sweep accumulator at the top of a tick. -/
def initSweep (s : SysState) : Sweep := ⟨s, [], [], []⟩

/-- One tick of ScannerSystem.update: timer section, proximity sweep over all
zones, then the respawn flush, returning the new state and the events of
the tick in emission order. -/
def update (env : Env) (cfg : Config) (delta now : ℚ) (zones : List Zone)
    (s : SysState) : SysState × List Ev :=
  let tp := timerPhase delta s
  let a := sweepZones cfg now 0 (initSweep tp.1) zones
  (flushRespawns env a.s a.respawns, tp.2 ++ a.events)

/-- The state right after init(): full clock, stopped, nothing scanned.  The
initial trackable set, id supply and random stream are parameters. -/
def initState (objs : List Scannable) (nid : Nat) (draws : Nat → Nat) : SysState :=
  { timeRemaining := gameDurationSeconds
    timerRunning := false
    gameStarted := false
    roundEnded := false
    roundShown := false
    timerWarningPlayed := false
    scannedCount := 0
    totalCartValue := 0
    scannables := objs
    nextId := nid
    draws := draws
    drawIdx := 0 }

/-- The host environment repositioning every trackable between ticks (hands,
physics): world positions are external inputs read fresh each tick. -/
def setPositions (ps : Nat → Option Vec3) (s : SysState) : SysState :=
  { s with scannables := s.scannables.map (fun o => { o with pos := ps o.id }) }

/-- States reachable from startup by ticks with nonnegative deltas, with the
host free to move every object between ticks. -/
inductive Reachable (env : Env) (cfg : Config) : SysState → Prop
  | init (objs : List Scannable) (nid : Nat) (draws : Nat → Nat) :
      Reachable env cfg (initState objs nid draws)
  | tick (s : SysState) (delta now : ℚ) (zones : List Zone) (ps : Nat → Option Vec3)
      (hr : Reachable env cfg s) (hd : 0 ≤ delta) :
      Reachable env cfg (update env cfg delta now zones (setPositions ps s)).1

/-- Event classifiers and projections. -/
def isScanEv : Ev → Bool
  | .scan _ _ _ => true
  | _ => false

/-- True for a scan event emitted by the zone of the given index. -/
def isScanOfZone (j : Nat) : Ev → Bool
  | .scan k _ _ => decide (k = j)
  | _ => false

/-- True for the ghost marker of the silent-discard branch. -/
def isDroppedEv : Ev → Bool
  | .dropped _ _ => true
  | _ => false

/-- True for the end-of-round notification. -/
def isRoundOverEv : Ev → Bool
  | .roundOver _ _ _ => true
  | _ => false

/-- The entity ids of the scan events of a tick, in emission order. -/
def scanIds (evs : List Ev) : List Nat :=
  evs.filterMap (fun e => match e with | .scan _ oid _ => some oid | _ => none)

/-- The zone tag of a sweep event (none for timer-section events). -/
def evZone : Ev → Option Nat
  | .scan k _ _ => some k
  | .dropped k _ => some k
  | _ => none

/-- The round bookkeeping of the state, bundled: everything except the
trackable set and the random stream. -/
def roundVars (s : SysState) :
    ℚ × Bool × Bool × Bool × Bool × Bool × Nat × ℚ :=
  (s.timeRemaining, s.timerRunning, s.gameStarted, s.roundEnded, s.roundShown,
   s.timerWarningPlayed, s.scannedCount, s.totalCartValue)

/-- Invariant of the round bookkeeping, maintained by every tick: the clamp
range of the clock, the freshness of an unstarted round, and the mutual
consistency of the scattered booleans. -/
structure Inv (s : SysState) : Prop where
  tr_nonneg : 0 ≤ s.timeRemaining
  tr_le : s.timeRemaining ≤ gameDurationSeconds
  run_pos : s.timerRunning = true → 0 < s.timeRemaining
  run_started : s.timerRunning = true → s.gameStarted = true
  idle_fresh : s.gameStarted = false →
    s.scannedCount = 0 ∧ s.totalCartValue = 0 ∧
    s.timeRemaining = gameDurationSeconds ∧ s.timerRunning = false ∧ s.roundShown = false
  shown_ended : s.roundShown = true → s.roundEnded = true
  stopped_ended : s.timerRunning = false → s.timeRemaining ≤ 0 → s.roundEnded = true
  run_not_shown : s.timerRunning = true → s.roundShown = false

lemma inv_of_roundVars_eq {s t : SysState} (h : roundVars t = roundVars s)
    (hs : Inv s) : Inv t := by
  simp only [roundVars, Prod.mk.injEq] at h
  obtain ⟨h1, h2, h3, h4, h5, h6, h7, h8⟩ := h
  obtain ⟨a1, a2, a3, a4, a5, a6, a7, a8⟩ := hs
  exact ⟨h1 ▸ a1, h1 ▸ a2,
    fun hr => h1 ▸ a3 (h2 ▸ hr),
    fun hr => h3 ▸ a4 (h2 ▸ hr),
    fun hg => by
      obtain ⟨b1, b2, b3, b4, b5⟩ := a5 (h3 ▸ hg)
      exact ⟨h7 ▸ b1, h8 ▸ b2, h1 ▸ b3, h2 ▸ b4, h5 ▸ b5⟩,
    fun hr => h4 ▸ a6 (h5 ▸ hr),
    fun hr ht => h4 ▸ a7 (h2 ▸ hr) (h1 ▸ ht),
    fun hr => h5 ▸ a8 (h2 ▸ hr)⟩

lemma inv_initState (objs : List Scannable) (nid : Nat) (draws : Nat → Nat) :
    Inv (initState objs nid draws) := by
  constructor <;> simp [initState, gameDurationSeconds]

lemma inv_set_scannables {s : SysState} (hs : Inv s) (l : List Scannable) :
    Inv { s with scannables := l } := by
  obtain ⟨a1, a2, a3, a4, a5, a6, a7, a8⟩ := hs
  exact ⟨a1, a2, a3, a4, a5, a6, a7, a8⟩

lemma inv_setPositions {s : SysState} (hs : Inv s) (ps : Nat → Option Vec3) :
    Inv (setPositions ps s) :=
  inv_set_scannables hs _

lemma inv_resetRound (s : SysState) : Inv (resetRound s) := by
  constructor <;> simp [resetRound, gameDurationSeconds]

lemma inv_scanState {s : SysState} (hs : Inv s) (pid : String) :
    Inv (recordSale pid (startIfNeeded s)) := by
  obtain ⟨a1, a2, a3, a4, a5, a6, a7, a8⟩ := hs
  by_cases hg : s.gameStarted = false
  · obtain ⟨b1, b2, b3, b4, b5⟩ := a5 hg
    have hsi : startIfNeeded s = { s with gameStarted := true, timerRunning := true } := by
      simp [startIfNeeded, hg]
    rw [hsi]
    constructor <;> simp [recordSale, b3, b5, gameDurationSeconds]
  · rw [Bool.not_eq_false] at hg
    have hsi : startIfNeeded s = s := by simp [startIfNeeded, hg]
    rw [hsi]
    exact ⟨a1, a2, a3, a4,
      fun h => absurd (hg.symm.trans h) (by simp), a6, a7, a8⟩

lemma inv_timerPhase {s : SysState} (hs : Inv s) {delta : ℚ} (hd : 0 ≤ delta) :
    Inv (timerPhase delta s).1 := by
  obtain ⟨a1, a2, a3, a4, a5, a6, a7, a8⟩ := hs
  unfold timerPhase
  by_cases hr : s.timerRunning = true
  · have hg := a4 hr
    have hsh := a8 hr
    rw [hr]
    simp only [if_true]
    split
    · next hw =>
      obtain ⟨hw1, hw2, hw3, hw4⟩ := hw
      constructor <;> simp [hg, hsh] <;> linarith
    · next hw =>
      split
      · next hz =>
        simp [showRoundComplete, hsh]
        constructor <;> simp [hg, gameDurationSeconds]
      · next hz =>
        push_neg at hz
        constructor <;> simp [hg, hsh] <;> linarith
  · simp only [Bool.not_eq_true] at hr
    rw [hr]
    simp only [Bool.false_eq_true, if_false]
    exact ⟨a1, a2, a3, a4, a5, a6, a7, a8⟩

lemma inv_sweepObjs {now cooldown : ℚ} {zIdx : Nat} {zpos : Vec3} {baseRadius : ℚ}
    (objs : List Scannable) :
    ∀ a : Sweep, Inv a.s →
      Inv (sweepObjs now cooldown zIdx zpos baseRadius a objs).1.s := by
  induction objs with
  | nil => intro a ha; simpa [sweepObjs] using ha
  | cons o rest ih =>
    intro a ha
    simp only [sweepObjs]
    split
    · split
      · split
        · exact inv_scanState (inv_resetRound a.s) _
        · exact ih _ ha
      · exact inv_scanState ha _
    · exact ih _ ha

lemma inv_sweepZones {cfg : Config} {now : ℚ} (zones : List Zone) :
    ∀ (zIdx : Nat) (a : Sweep), Inv a.s →
      Inv (sweepZones cfg now zIdx a zones).s := by
  induction zones with
  | nil => intro zIdx a ha; simpa [sweepZones] using ha
  | cons z rest ih =>
    intro zIdx a ha
    simp only [sweepZones]
    match hz : z.pos with
    | none => exact ih _ _ ha
    | some zpos =>
      exact ih _ _ (inv_set_scannables (inv_sweepObjs _ _ ha) _)

lemma roundVars_spawn (env : Env) (hx hy hz : ℚ) (s : SysState) :
    roundVars (spawnRandomProductAt env hx hy hz s) = roundVars s := by
  unfold spawnRandomProductAt
  split
  · rfl
  · split <;> rfl

lemma roundVars_flushGo (env : Env) (rs : List RespawnReq) :
    ∀ (used : List (ℤ × ℤ × ℤ)) (s : SysState),
      roundVars (flushGo env used s rs) = roundVars s := by
  induction rs with
  | nil => intro used s; rfl
  | cons r rest ih =>
    intro used s
    simp only [flushGo]
    split
    · exact ih _ _
    · rw [ih _ _, roundVars_spawn]

lemma roundVars_flushRespawns (env : Env) (s : SysState) (rs : List RespawnReq) :
    roundVars (flushRespawns env s rs) = roundVars s :=
  roundVars_flushGo env rs [] s

lemma inv_update {env : Env} {cfg : Config} {delta now : ℚ} {zones : List Zone}
    {s : SysState} (hs : Inv s) (hd : 0 ≤ delta) :
    Inv (update env cfg delta now zones s).1 := by
  unfold update
  exact inv_of_roundVars_eq (roundVars_flushRespawns _ _ _)
    (inv_sweepZones zones 0 (initSweep (timerPhase delta s).1) (inv_timerPhase hs hd))

/-- Every reachable state satisfies the round-bookkeeping invariant. -/
lemma reachable_inv {env : Env} {cfg : Config} {s : SysState}
    (h : Reachable env cfg s) : Inv s := by
  induction h with
  | init objs nid draws => exact inv_initState objs nid draws
  | tick s delta now zones ps hr hd ih =>
    exact inv_update (inv_setPositions ih ps) hd

/-- The round gate can honor a scan: it is not in the silent-discard
configuration (clock stopped at zero with the round not flagged ended). -/
def RoundOk (s : SysState) : Prop :=
  ¬(s.timerRunning = false ∧ s.timeRemaining ≤ 0 ∧ s.roundEnded = false)

instance (s : SysState) : Decidable (RoundOk s) := by
  unfold RoundOk
  infer_instance

lemma inv_roundOk {s : SysState} (hs : Inv s) : RoundOk s := by
  rintro ⟨h1, h2, h3⟩
  rw [hs.stopped_ended h1 h2] at h3
  exact absurd h3 (by simp)

lemma scanIds_append (l1 l2 : List Ev) : scanIds (l1 ++ l2) = scanIds l1 ++ scanIds l2 :=
  List.filterMap_append l1 l2 _

lemma scanIds_snoc_scan (l : List Ev) (k i : Nat) (p : String) :
    scanIds (l ++ [Ev.scan k i p]) = scanIds l ++ [i] := by
  simp [scanIds_append, scanIds]

lemma scanIds_snoc_dropped (l : List Ev) (k i : Nat) :
    scanIds (l ++ [Ev.dropped k i]) = scanIds l := by
  simp [scanIds_append, scanIds]

/-- Unpacking of the five continue tests of the candidate filter. -/
lemma eligible_iff {now cooldown : ℚ} {zpos : Vec3} {baseRadius : ℚ}
    {sids : List Nat} {o : Scannable} :
    eligible now cooldown zpos baseRadius sids o = true ↔
      o.id ∉ sids ∧ o.scannedOut = false ∧
      (∃ p, o.pos = some p ∧ posQualifies zpos baseRadius p = true) ∧
      cooldownBlocked now cooldown o = false := by
  unfold eligible
  cases hp : o.pos <;>
    simp [Bool.and_eq_true, hp, Bool.not_eq_true', and_assoc]

lemma scanIds_timerPhase (delta : ℚ) (s : SysState) :
    scanIds (timerPhase delta s).2 = [] := by
  simp only [timerPhase, showRoundComplete]
  split_ifs <;> simp [scanIds]

lemma timerPhase_no_dropped (delta : ℚ) (s : SysState) :
    (timerPhase delta s).2.countP isDroppedEv = 0 := by
  simp only [timerPhase, showRoundComplete]
  split_ifs <;> simp [isDroppedEv]

lemma timerPhase_no_scan (delta : ℚ) (s : SysState) :
    (timerPhase delta s).2.countP isScanEv = 0 := by
  simp only [timerPhase, showRoundComplete]
  split_ifs <;> simp [isScanEv]

lemma timerPhase_no_zone_scan (delta : ℚ) (s : SysState) (j : Nat) :
    (timerPhase delta s).2.countP (isScanOfZone j) = 0 := by
  simp only [timerPhase, showRoundComplete]
  split_ifs <;> simp [isScanOfZone]

lemma timerPhase_keeps (delta : ℚ) (s : SysState) :
    (timerPhase delta s).1.scannables = s.scannables ∧
    (timerPhase delta s).1.nextId = s.nextId ∧
    (timerPhase delta s).1.scannedCount = s.scannedCount ∧
    (timerPhase delta s).1.totalCartValue = s.totalCartValue := by
  simp only [timerPhase, showRoundComplete]
  split_ifs <;> simp

/-- The events appended by one zone sweep all carry that zone index, and at
most one of them is a scan event: the source breaks the inner loop at the
first honored candidate. -/
lemma sweepObjs_events {now cooldown : ℚ} {zIdx : Nat} {zpos : Vec3} {baseRadius : ℚ}
    (objs : List Scannable) :
    ∀ a : Sweep, ∃ E,
      (sweepObjs now cooldown zIdx zpos baseRadius a objs).1.events = a.events ++ E ∧
      (∀ e ∈ E, evZone e = some zIdx) ∧
      E.countP isScanEv ≤ 1 := by
  induction objs with
  | nil => exact fun a => ⟨[], by simp [sweepObjs], by simp, by simp⟩
  | cons o rest ih =>
    intro a
    simp only [sweepObjs]
    by_cases he : eligible now cooldown zpos baseRadius a.scannedIds o = true
    · rw [if_pos he]
      by_cases hg : a.s.timerRunning = false ∧ a.s.timeRemaining ≤ 0
      · rw [if_pos hg]
        by_cases hre : a.s.roundEnded = true
        · rw [if_pos hre]
          exact ⟨[Ev.scan zIdx o.id o.productId], by simp [scanAcc],
            by simp [evZone], by simp [isScanEv]⟩
        · rw [if_neg hre]
          obtain ⟨E, h1, h2, h3⟩ :=
            ih { a with events := a.events ++ [Ev.dropped zIdx o.id] }
          refine ⟨Ev.dropped zIdx o.id :: E, ?_, ?_, ?_⟩
          · simpa using h1
          · intro e hmem
            rcases List.mem_cons.1 hmem with rfl | he2
            · simp [evZone]
            · exact h2 e he2
          · simpa [isScanEv] using h3
      · rw [if_neg hg]
        exact ⟨[Ev.scan zIdx o.id o.productId], by simp [scanAcc],
          by simp [evZone], by simp [isScanEv]⟩
    · rw [if_neg he]
      exact ih a

/-- Soundness of the scannedThisFrame set: scan-event ids are distinct and
recorded in the set. -/
def GoodEv (a : Sweep) : Prop :=
  (scanIds a.events).Nodup ∧ ∀ i ∈ scanIds a.events, i ∈ a.scannedIds

lemma sweepObjs_goodEv {now cooldown : ℚ} {zIdx : Nat} {zpos : Vec3} {baseRadius : ℚ}
    (objs : List Scannable) :
    ∀ a : Sweep, GoodEv a →
      GoodEv (sweepObjs now cooldown zIdx zpos baseRadius a objs).1 := by
  induction objs with
  | nil => intro a ha; simpa [sweepObjs] using ha
  | cons o rest ih =>
    intro a ha
    simp only [sweepObjs]
    by_cases he : eligible now cooldown zpos baseRadius a.scannedIds o = true
    · rw [if_pos he]
      have hnotin : o.id ∉ a.scannedIds := (eligible_iff.1 he).1
      have hnew : o.id ∉ scanIds a.events := fun hmem => hnotin (ha.2 _ hmem)
      have hScanGood : ∀ a' : Sweep, a'.events = a.events → a'.scannedIds = a.scannedIds →
          GoodEv (scanAcc zIdx o a') := by
        intro a' hev hids
        refine ⟨?_, ?_⟩
        · show (scanIds (a'.events ++ [Ev.scan zIdx o.id o.productId])).Nodup
          rw [hev, scanIds_snoc_scan]
          refine List.Nodup.append ha.1 (List.nodup_singleton _) ?_
          intro x hx hx2
          simp only [List.mem_singleton] at hx2
          subst hx2
          exact hnew hx
        · intro i hi
          show i ∈ a'.scannedIds ++ [o.id]
          rw [hids]
          have hi2 : i ∈ scanIds (a'.events ++ [Ev.scan zIdx o.id o.productId]) := hi
          rw [hev, scanIds_snoc_scan] at hi2
          rcases List.mem_append.1 hi2 with h | h
          · exact List.mem_append_left _ (ha.2 _ h)
          · exact List.mem_append_right _ h
      by_cases hg : a.s.timerRunning = false ∧ a.s.timeRemaining ≤ 0
      · rw [if_pos hg]
        by_cases hre : a.s.roundEnded = true
        · rw [if_pos hre]
          exact hScanGood _ rfl rfl
        · rw [if_neg hre]
          refine ih _ ⟨?_, ?_⟩
          · show (scanIds (a.events ++ [Ev.dropped zIdx o.id])).Nodup
            rw [scanIds_snoc_dropped]
            exact ha.1
          · intro i hi
            have hi2 : i ∈ scanIds (a.events ++ [Ev.dropped zIdx o.id]) := hi
            rw [scanIds_snoc_dropped] at hi2
            exact ha.2 i hi2
      · rw [if_neg hg]
        exact hScanGood _ rfl rfl
    · rw [if_neg he]
      exact ih a ha

lemma scanState_keeps (pid : String) (s : SysState) :
    (recordSale pid (startIfNeeded s)).timeRemaining = s.timeRemaining ∧
    (recordSale pid (startIfNeeded s)).scannables = s.scannables ∧
    (recordSale pid (startIfNeeded s)).nextId = s.nextId := by
  unfold recordSale startIfNeeded
  split_ifs <;> simp

lemma scanState_running (pid : String) (s : SysState) (h : s.timerRunning = true) :
    (recordSale pid (startIfNeeded s)).timerRunning = true := by
  unfold recordSale startIfNeeded
  split_ifs <;> simp [h]

lemma scanState_reset_run (pid : String) (s : SysState) :
    (recordSale pid (startIfNeeded (resetRound s))).timerRunning = true ∧
    (recordSale pid (startIfNeeded (resetRound s))).timeRemaining = gameDurationSeconds ∧
    (recordSale pid (startIfNeeded (resetRound s))).scannedCount = 1 := by
  simp [recordSale, startIfNeeded, resetRound]

/-- Every scan-event id of a zone sweep was already present or names an
object of the traversed list. -/
lemma sweepObjs_scan_src {now cooldown : ℚ} {zIdx : Nat} {zpos : Vec3} {baseRadius : ℚ}
    (objs : List Scannable) :
    ∀ (a : Sweep) (i : Nat),
      i ∈ scanIds (sweepObjs now cooldown zIdx zpos baseRadius a objs).1.events →
      i ∈ scanIds a.events ∨ ∃ o ∈ objs, o.id = i := by
  induction objs with
  | nil => intro a i hi; left; simpa [sweepObjs] using hi
  | cons o rest ih =>
    intro a i hi
    simp only [sweepObjs] at hi
    by_cases he : eligible now cooldown zpos baseRadius a.scannedIds o = true
    · rw [if_pos he] at hi
      by_cases hg : a.s.timerRunning = false ∧ a.s.timeRemaining ≤ 0
      · rw [if_pos hg] at hi
        by_cases hre : a.s.roundEnded = true
        · rw [if_pos hre] at hi
          have hi2 : i ∈ scanIds (a.events ++ [Ev.scan zIdx o.id o.productId]) := hi
          rw [scanIds_snoc_scan] at hi2
          rcases List.mem_append.1 hi2 with h | h
          · exact Or.inl h
          · exact Or.inr ⟨o, List.mem_cons_self o rest, (List.mem_singleton.1 h).symm⟩
        · rw [if_neg hre] at hi
          rcases ih _ i hi with h | ⟨o', ho', hid⟩
          · have h2 : i ∈ scanIds (a.events ++ [Ev.dropped zIdx o.id]) := h
            rw [scanIds_snoc_dropped] at h2
            exact Or.inl h2
          · exact Or.inr ⟨o', List.mem_cons_of_mem _ ho', hid⟩
      · rw [if_neg hg] at hi
        have hi2 : i ∈ scanIds (a.events ++ [Ev.scan zIdx o.id o.productId]) := hi
        rw [scanIds_snoc_scan] at hi2
        rcases List.mem_append.1 hi2 with h | h
        · exact Or.inl h
        · exact Or.inr ⟨o, List.mem_cons_self o rest, (List.mem_singleton.1 h).symm⟩
    · rw [if_neg he] at hi
      rcases ih _ i hi with h | ⟨o', ho', hid⟩
      · exact Or.inl h
      · exact Or.inr ⟨o', List.mem_cons_of_mem _ ho', hid⟩

/-- A blocked object (one failing the candidate filter for every
scannedThisFrame set) is never scanned by a zone sweep, and stays blocked. -/
lemma sweepObjs_blocked {now cooldown : ℚ} {zIdx : Nat} {zpos : Vec3} {baseRadius : ℚ}
    (B : Scannable → Prop)
    (hB : ∀ (sids : List Nat) (o : Scannable), B o →
      eligible now cooldown zpos baseRadius sids o = false)
    (oid : Nat) (objs : List Scannable) :
    ∀ a : Sweep, (∀ o ∈ objs, o.id = oid → B o) → oid ∉ scanIds a.events →
      oid ∉ scanIds (sweepObjs now cooldown zIdx zpos baseRadius a objs).1.events ∧
      (∀ o ∈ (sweepObjs now cooldown zIdx zpos baseRadius a objs).2,
        o.id = oid → B o) := by
  induction objs with
  | nil =>
    intro a hobjs hnot
    refine ⟨by simpa [sweepObjs] using hnot, ?_⟩
    intro o ho
    simp [sweepObjs] at ho
  | cons o rest ih =>
    intro a hobjs hnot
    have hrest : ∀ o' ∈ rest, o'.id = oid → B o' :=
      fun o' ho' => hobjs o' (List.mem_cons_of_mem _ ho')
    simp only [sweepObjs]
    by_cases he : eligible now cooldown zpos baseRadius a.scannedIds o = true
    · have hne : o.id ≠ oid := by
        intro hid
        have hbo := hobjs o (List.mem_cons_self o rest) hid
        rw [hB a.scannedIds o hbo] at he
        exact absurd he (by simp)
      rw [if_pos he]
      by_cases hg : a.s.timerRunning = false ∧ a.s.timeRemaining ≤ 0
      · rw [if_pos hg]
        by_cases hre : a.s.roundEnded = true
        · rw [if_pos hre]
          refine ⟨?_, ?_⟩
          · show oid ∉ scanIds (a.events ++ [Ev.scan zIdx o.id o.productId])
            rw [scanIds_snoc_scan]
            intro hmem
            rcases List.mem_append.1 hmem with h | h
            · exact hnot h
            · exact hne (List.mem_singleton.1 h).symm
          · intro o' ho' hid
            rcases List.mem_cons.1 ho' with rfl | h
            · exact absurd hid (by simpa [scanUpd] using hne)
            · exact hrest o' h hid
        · rw [if_neg hre]
          have hnot2 : oid ∉ scanIds
              ({ a with events := a.events ++ [Ev.dropped zIdx o.id] } : Sweep).events := by
            show oid ∉ scanIds (a.events ++ [Ev.dropped zIdx o.id])
            rw [scanIds_snoc_dropped]
            exact hnot
          obtain ⟨h1, h2⟩ := ih _ hrest hnot2
          refine ⟨h1, ?_⟩
          intro o' ho' hid
          rcases List.mem_cons.1 ho' with rfl | h
          · exact hobjs o' (List.mem_cons_self o' rest) hid
          · exact h2 o' h hid
      · rw [if_neg hg]
        refine ⟨?_, ?_⟩
        · show oid ∉ scanIds (a.events ++ [Ev.scan zIdx o.id o.productId])
          rw [scanIds_snoc_scan]
          intro hmem
          rcases List.mem_append.1 hmem with h | h
          · exact hnot h
          · exact hne (List.mem_singleton.1 h).symm
        · intro o' ho' hid
          rcases List.mem_cons.1 ho' with rfl | h
          · exact absurd hid (by simpa [scanUpd] using hne)
          · exact hrest o' h hid
    · rw [if_neg he]
      obtain ⟨h1, h2⟩ := ih a hrest hnot
      refine ⟨h1, ?_⟩
      intro o' ho' hid
      rcases List.mem_cons.1 ho' with rfl | h
      · exact hobjs o' (List.mem_cons_self o' rest) hid
      · exact h2 o' h hid

/-- While the clock is running, a zone sweep neither stops it nor moves it. -/
lemma sweepObjs_running {now cooldown : ℚ} {zIdx : Nat} {zpos : Vec3} {baseRadius : ℚ}
    (objs : List Scannable) :
    ∀ a : Sweep, a.s.timerRunning = true →
      (sweepObjs now cooldown zIdx zpos baseRadius a objs).1.s.timerRunning = true ∧
      (sweepObjs now cooldown zIdx zpos baseRadius a objs).1.s.timeRemaining
        = a.s.timeRemaining := by
  induction objs with
  | nil => intro a ha; simp [sweepObjs, ha]
  | cons o rest ih =>
    intro a ha
    simp only [sweepObjs]
    by_cases he : eligible now cooldown zpos baseRadius a.scannedIds o = true
    · rw [if_pos he]
      have hg : ¬(a.s.timerRunning = false ∧ a.s.timeRemaining ≤ 0) := by
        rintro ⟨h1, _⟩
        rw [ha] at h1
        exact absurd h1 (by simp)
      rw [if_neg hg]
      exact ⟨scanState_running _ _ ha, (scanState_keeps _ _).1⟩
    · rw [if_neg he]
      exact ih a ha

/-- A zone sweep leaves the clock untouched unless it restarts an ended
round, in which case the clock is running at full duration. -/
lemma sweepObjs_tr {now cooldown : ℚ} {zIdx : Nat} {zpos : Vec3} {baseRadius : ℚ}
    (objs : List Scannable) :
    ∀ a : Sweep,
      (sweepObjs now cooldown zIdx zpos baseRadius a objs).1.s.timeRemaining
          = a.s.timeRemaining ∨
      ((sweepObjs now cooldown zIdx zpos baseRadius a objs).1.s.timeRemaining
          = gameDurationSeconds ∧
       (sweepObjs now cooldown zIdx zpos baseRadius a objs).1.s.timerRunning = true) := by
  induction objs with
  | nil => intro a; left; simp [sweepObjs]
  | cons o rest ih =>
    intro a
    simp only [sweepObjs]
    by_cases he : eligible now cooldown zpos baseRadius a.scannedIds o = true
    · rw [if_pos he]
      by_cases hg : a.s.timerRunning = false ∧ a.s.timeRemaining ≤ 0
      · rw [if_pos hg]
        by_cases hre : a.s.roundEnded = true
        · rw [if_pos hre]
          right
          exact ⟨(scanState_reset_run _ _).2.1, (scanState_reset_run _ _).1⟩
        · rw [if_neg hre]
          exact ih _
      · rw [if_neg hg]
        left
        exact (scanState_keeps _ _).1
    · rw [if_neg he]
      exact ih a

/-- Under the reachability invariant, the silent-discard branch of the round
gate never fires during a zone sweep. -/
lemma sweepObjs_dropFree {now cooldown : ℚ} {zIdx : Nat} {zpos : Vec3} {baseRadius : ℚ}
    (objs : List Scannable) :
    ∀ a : Sweep, Inv a.s →
      (sweepObjs now cooldown zIdx zpos baseRadius a objs).1.events.countP isDroppedEv
        = a.events.countP isDroppedEv := by
  induction objs with
  | nil => intro a _; simp [sweepObjs]
  | cons o rest ih =>
    intro a ha
    simp only [sweepObjs]
    by_cases he : eligible now cooldown zpos baseRadius a.scannedIds o = true
    · rw [if_pos he]
      by_cases hg : a.s.timerRunning = false ∧ a.s.timeRemaining ≤ 0
      · rw [if_pos hg]
        have hre : a.s.roundEnded = true := ha.stopped_ended hg.1 hg.2
        rw [if_pos hre]
        show (a.events ++ [Ev.scan zIdx o.id o.productId]).countP isDroppedEv
          = a.events.countP isDroppedEv
        simp [List.countP_append, isDroppedEv]
      · rw [if_neg hg]
        show (a.events ++ [Ev.scan zIdx o.id o.productId]).countP isDroppedEv
          = a.events.countP isDroppedEv
        simp [List.countP_append, isDroppedEv]
    · rw [if_neg he]
      exact ih a ha

/-- With the round gate open and at least one eligible candidate, a zone
sweep emits exactly one new scan event. -/
lemma sweepObjs_oneScan {now cooldown : ℚ} {zIdx : Nat} {zpos : Vec3} {baseRadius : ℚ}
    (objs : List Scannable) :
    ∀ a : Sweep, RoundOk a.s →
      (∃ o ∈ objs, eligible now cooldown zpos baseRadius a.scannedIds o = true) →
      (sweepObjs now cooldown zIdx zpos baseRadius a objs).1.events.countP isScanEv
        = a.events.countP isScanEv + 1 := by
  induction objs with
  | nil =>
    intro a _ hex
    obtain ⟨o, ho, _⟩ := hex
    exact absurd ho (List.not_mem_nil o)
  | cons o rest ih =>
    intro a hok hex
    simp only [sweepObjs]
    by_cases he : eligible now cooldown zpos baseRadius a.scannedIds o = true
    · rw [if_pos he]
      by_cases hg : a.s.timerRunning = false ∧ a.s.timeRemaining ≤ 0
      · rw [if_pos hg]
        by_cases hre : a.s.roundEnded = true
        · rw [if_pos hre]
          show (a.events ++ [Ev.scan zIdx o.id o.productId]).countP isScanEv
            = a.events.countP isScanEv + 1
          simp [List.countP_append, isScanEv]
        · exact absurd ⟨hg.1, hg.2, Bool.not_eq_true _ ▸ hre⟩ hok
      · rw [if_neg hg]
        show (a.events ++ [Ev.scan zIdx o.id o.productId]).countP isScanEv
          = a.events.countP isScanEv + 1
        simp [List.countP_append, isScanEv]
    · rw [if_neg he]
      obtain ⟨o', ho', helig⟩ := hex
      rcases List.mem_cons.1 ho' with rfl | hmem
      · exact absurd helig he
      · exact ih a hok ⟨o', hmem, helig⟩

/-- A qualifying scan arriving with the clock stopped at zero and the round
flagged ended restarts the round and is scored as its first scan. -/
lemma sweepObjs_restart {now cooldown : ℚ} {zIdx : Nat} {zpos : Vec3} {baseRadius : ℚ}
    (objs : List Scannable) :
    ∀ a : Sweep, a.s.timerRunning = false → a.s.timeRemaining ≤ 0 →
      a.s.roundEnded = true →
      (∃ o ∈ objs, eligible now cooldown zpos baseRadius a.scannedIds o = true) →
      (sweepObjs now cooldown zIdx zpos baseRadius a objs).1.s.timerRunning = true ∧
      (sweepObjs now cooldown zIdx zpos baseRadius a objs).1.s.scannedCount = 1 ∧
      (sweepObjs now cooldown zIdx zpos baseRadius a objs).1.s.timeRemaining
        = gameDurationSeconds := by
  induction objs with
  | nil =>
    intro a _ _ _ hex
    obtain ⟨o, ho, _⟩ := hex
    exact absurd ho (List.not_mem_nil o)
  | cons o rest ih =>
    intro a h1 h2 h3 hex
    simp only [sweepObjs]
    by_cases he : eligible now cooldown zpos baseRadius a.scannedIds o = true
    · rw [if_pos he, if_pos ⟨h1, h2⟩, if_pos h3]
      exact ⟨(scanState_reset_run _ _).1, (scanState_reset_run _ _).2.2,
        (scanState_reset_run _ _).2.1⟩
    · rw [if_neg he]
      obtain ⟨o', ho', helig⟩ := hex
      rcases List.mem_cons.1 ho' with rfl | hmem
      · exact absurd helig he
      · exact ih a h1 h2 h3 ⟨o', hmem, helig⟩

/-- A zone sweep does not touch the scannables field of the state nor the id
supply (the traversed list is returned separately). -/
lemma sweepObjs_keepsState {now cooldown : ℚ} {zIdx : Nat} {zpos : Vec3} {baseRadius : ℚ}
    (objs : List Scannable) :
    ∀ a : Sweep,
      (sweepObjs now cooldown zIdx zpos baseRadius a objs).1.s.scannables
        = a.s.scannables ∧
      (sweepObjs now cooldown zIdx zpos baseRadius a objs).1.s.nextId = a.s.nextId := by
  induction objs with
  | nil => intro a; simp [sweepObjs]
  | cons o rest ih =>
    intro a
    simp only [sweepObjs]
    by_cases he : eligible now cooldown zpos baseRadius a.scannedIds o = true
    · rw [if_pos he]
      by_cases hg : a.s.timerRunning = false ∧ a.s.timeRemaining ≤ 0
      · rw [if_pos hg]
        by_cases hre : a.s.roundEnded = true
        · rw [if_pos hre]
          exact ⟨(scanState_keeps _ _).2.1, (scanState_keeps _ _).2.2⟩
        · rw [if_neg hre]
          exact ih _
      · rw [if_neg hg]
        exact ⟨(scanState_keeps _ _).2.1, (scanState_keeps _ _).2.2⟩
    · rw [if_neg he]
      exact ih a

/-- A zone sweep rewrites scanned objects in place: the id sequence of the
trackable list is unchanged. -/
lemma sweepObjs_ids {now cooldown : ℚ} {zIdx : Nat} {zpos : Vec3} {baseRadius : ℚ}
    (objs : List Scannable) :
    ∀ a : Sweep,
      ((sweepObjs now cooldown zIdx zpos baseRadius a objs).2).map (fun o => o.id)
        = objs.map (fun o => o.id) := by
  induction objs with
  | nil => intro a; simp [sweepObjs]
  | cons o rest ih =>
    intro a
    simp only [sweepObjs]
    by_cases he : eligible now cooldown zpos baseRadius a.scannedIds o = true
    · rw [if_pos he]
      by_cases hg : a.s.timerRunning = false ∧ a.s.timeRemaining ≤ 0
      · rw [if_pos hg]
        by_cases hre : a.s.roundEnded = true
        · rw [if_pos hre]; simp [scanUpd]
        · rw [if_neg hre]; simp [ih]
      · rw [if_neg hg]; simp [scanUpd]
    · rw [if_neg he]; simp [ih]

lemma isScanOfZone_imp_scan {j : Nat} {e : Ev} (h : isScanOfZone j e = true) :
    isScanEv e = true := by
  cases e <;> simp_all [isScanOfZone, isScanEv]

lemma isScanOfZone_zone {j : Nat} {e : Ev} (h : isScanOfZone j e = true) :
    evZone e = some j := by
  cases e <;> simp_all [isScanOfZone, evZone]

/-- The events appended by the full sweep carry zone tags at or above the
starting index, with at most one scan event per zone index. -/
lemma sweepZones_events {cfg : Config} {now : ℚ} (zones : List Zone) :
    ∀ (zIdx : Nat) (a : Sweep), ∃ E,
      (sweepZones cfg now zIdx a zones).events = a.events ++ E ∧
      (∀ e ∈ E, ∃ k, evZone e = some k ∧ zIdx ≤ k) ∧
      (∀ j, E.countP (isScanOfZone j) ≤ 1) := by
  induction zones with
  | nil => intro zIdx a; exact ⟨[], by simp [sweepZones], by simp, by simp⟩
  | cons z rest ih =>
    intro zIdx a
    simp only [sweepZones]
    split
    · obtain ⟨E, h1, h2, h3⟩ := ih (zIdx + 1) a
      refine ⟨E, h1, ?_, h3⟩
      intro e hmem
      obtain ⟨k, hk1, hk2⟩ := h2 e hmem
      exact ⟨k, hk1, le_trans (Nat.le_succ zIdx) hk2⟩
    · next zpos hz =>
      obtain ⟨E0, h01, h02, h03⟩ :=
        @sweepObjs_events now cfg.scanCooldown zIdx zpos (z.radius.getD cfg.scanRadius)
          a.s.scannables a
      obtain ⟨E1, h11, h12, h13⟩ := ih (zIdx + 1)
        (installObjs (sweepObjs now cfg.scanCooldown zIdx zpos
          (z.radius.getD cfg.scanRadius) a a.s.scannables))
      refine ⟨E0 ++ E1, ?_, ?_, ?_⟩
      · rw [h11]
        show (sweepObjs now cfg.scanCooldown zIdx zpos
          (z.radius.getD cfg.scanRadius) a a.s.scannables).1.events ++ E1 = _
        rw [h01, List.append_assoc]
      · intro e hmem
        rcases List.mem_append.1 hmem with h | h
        · exact ⟨zIdx, h02 e h, le_refl zIdx⟩
        · obtain ⟨k, hk1, hk2⟩ := h12 e h
          exact ⟨k, hk1, le_trans (Nat.le_succ zIdx) hk2⟩
      · intro j
        rw [List.countP_append]
        by_cases hj : j = zIdx
        · subst hj
          have hE1 : E1.countP (isScanOfZone j) = 0 := by
            rw [List.countP_eq_zero]
            intro e hmem hsc
            obtain ⟨k, hk1, hk2⟩ := h12 e hmem
            rw [isScanOfZone_zone hsc] at hk1
            have hjk : j = k := by injection hk1
            omega
          have hE0 : E0.countP (isScanOfZone j) ≤ 1 :=
            le_trans (List.countP_mono_left (fun e _ => isScanOfZone_imp_scan)) h03
          omega
        · have hE0 : E0.countP (isScanOfZone j) = 0 := by
            rw [List.countP_eq_zero]
            intro e hmem hsc
            have h4 := h02 e hmem
            rw [isScanOfZone_zone hsc] at h4
            exact hj (by injection h4)
          have hE1 : E1.countP (isScanOfZone j) ≤ 1 := h13 j
          omega

lemma sweepZones_goodEv {cfg : Config} {now : ℚ} (zones : List Zone) :
    ∀ (zIdx : Nat) (a : Sweep), GoodEv a →
      GoodEv (sweepZones cfg now zIdx a zones) := by
  induction zones with
  | nil => intro zIdx a ha; simpa [sweepZones] using ha
  | cons z rest ih =>
    intro zIdx a ha
    simp only [sweepZones]
    split
    · exact ih _ _ ha
    · next zpos hz =>
      refine ih _ _ ⟨?_, ?_⟩
      · exact (sweepObjs_goodEv _ _ ha).1
      · exact (sweepObjs_goodEv _ _ ha).2

lemma sweepZones_scan_src {cfg : Config} {now : ℚ} (zones : List Zone) :
    ∀ (zIdx : Nat) (a : Sweep) (i : Nat),
      i ∈ scanIds (sweepZones cfg now zIdx a zones).events →
      i ∈ scanIds a.events ∨ ∃ o ∈ a.s.scannables, o.id = i := by
  induction zones with
  | nil => intro zIdx a i hi; left; simpa [sweepZones] using hi
  | cons z rest ih =>
    intro zIdx a i hi
    simp only [sweepZones] at hi
    split at hi
    · exact ih _ _ _ hi
    · next zpos hz =>
      rcases ih _ _ _ hi with h | ⟨o, ho, hid⟩
      · rcases sweepObjs_scan_src _ _ _ h with h2 | ⟨o, ho, hid⟩
        · exact Or.inl h2
        · exact Or.inr ⟨o, ho, hid⟩
      · have hids := @sweepObjs_ids now cfg.scanCooldown zIdx zpos
          (z.radius.getD cfg.scanRadius) a.s.scannables a
        have ho2 : o.id ∈ ((sweepObjs now cfg.scanCooldown zIdx zpos
            (z.radius.getD cfg.scanRadius) a a.s.scannables).2).map (fun o => o.id) :=
          List.mem_map.2 ⟨o, ho, rfl⟩
        rw [hids] at ho2
        obtain ⟨o', ho', hid'⟩ := List.mem_map.1 ho2
        exact Or.inr ⟨o', ho', hid ▸ hid'⟩

lemma sweepZones_blocked {cfg : Config} {now : ℚ}
    (B : Scannable → Prop)
    (hB : ∀ (zpos : Vec3) (baseRadius : ℚ) (sids : List Nat) (o : Scannable), B o →
      eligible now cfg.scanCooldown zpos baseRadius sids o = false)
    (oid : Nat) (zones : List Zone) :
    ∀ (zIdx : Nat) (a : Sweep),
      (∀ o ∈ a.s.scannables, o.id = oid → B o) → oid ∉ scanIds a.events →
      oid ∉ scanIds (sweepZones cfg now zIdx a zones).events := by
  induction zones with
  | nil => intro zIdx a _ hnot; simpa [sweepZones] using hnot
  | cons z rest ih =>
    intro zIdx a hobjs hnot
    simp only [sweepZones]
    split
    · exact ih _ _ hobjs hnot
    · next zpos hz =>
      obtain ⟨h1, h2⟩ := sweepObjs_blocked B (hB zpos (z.radius.getD cfg.scanRadius))
        oid a.s.scannables a hobjs hnot
      exact ih _ _ h2 h1

lemma sweepZones_running {cfg : Config} {now : ℚ} (zones : List Zone) :
    ∀ (zIdx : Nat) (a : Sweep), a.s.timerRunning = true →
      (sweepZones cfg now zIdx a zones).s.timerRunning = true ∧
      (sweepZones cfg now zIdx a zones).s.timeRemaining = a.s.timeRemaining := by
  induction zones with
  | nil => intro zIdx a ha; simp [sweepZones, ha]
  | cons z rest ih =>
    intro zIdx a ha
    simp only [sweepZones]
    split
    · exact ih _ _ ha
    · next zpos hz =>
      obtain ⟨h1, h2⟩ := @sweepObjs_running now cfg.scanCooldown zIdx zpos
        (z.radius.getD cfg.scanRadius) a.s.scannables a ha
      obtain ⟨h3, h4⟩ := ih (zIdx + 1)
        (installObjs (sweepObjs now cfg.scanCooldown zIdx zpos
          (z.radius.getD cfg.scanRadius) a a.s.scannables)) h1
      exact ⟨h3, by rw [h4]; exact h2⟩

lemma sweepZones_tr {cfg : Config} {now : ℚ} (zones : List Zone) :
    ∀ (zIdx : Nat) (a : Sweep),
      (sweepZones cfg now zIdx a zones).s.timeRemaining = a.s.timeRemaining ∨
      ((sweepZones cfg now zIdx a zones).s.timeRemaining = gameDurationSeconds ∧
       (sweepZones cfg now zIdx a zones).s.timerRunning = true) := by
  induction zones with
  | nil => intro zIdx a; left; simp [sweepZones]
  | cons z rest ih =>
    intro zIdx a
    simp only [sweepZones]
    split
    · exact ih _ _
    · next zpos hz =>
      rcases @sweepObjs_tr now cfg.scanCooldown zIdx zpos
          (z.radius.getD cfg.scanRadius) a.s.scannables a with h | ⟨h1, h2⟩
      · rcases ih (zIdx + 1)
            (installObjs (sweepObjs now cfg.scanCooldown zIdx zpos
              (z.radius.getD cfg.scanRadius) a a.s.scannables)) with h2 | ⟨h3, h4⟩
        · left; rw [h2]; exact h
        · right; exact ⟨h3, h4⟩
      · obtain ⟨h3, h4⟩ := sweepZones_running rest (zIdx + 1)
          (installObjs (sweepObjs now cfg.scanCooldown zIdx zpos
            (z.radius.getD cfg.scanRadius) a a.s.scannables)) h2
        right
        exact ⟨by rw [h4]; exact h1, h3⟩

lemma sweepZones_dropFree {cfg : Config} {now : ℚ} (zones : List Zone) :
    ∀ (zIdx : Nat) (a : Sweep), Inv a.s →
      (sweepZones cfg now zIdx a zones).events.countP isDroppedEv
        = a.events.countP isDroppedEv := by
  induction zones with
  | nil => intro zIdx a _; simp [sweepZones]
  | cons z rest ih =>
    intro zIdx a ha
    simp only [sweepZones]
    split
    · exact ih _ _ ha
    · next zpos hz =>
      have h1 := ih (zIdx + 1)
        (installObjs (sweepObjs now cfg.scanCooldown zIdx zpos
          (z.radius.getD cfg.scanRadius) a a.s.scannables))
        (inv_set_scannables (inv_sweepObjs _ _ ha) _)
      rw [h1]
      exact sweepObjs_dropFree _ _ ha

lemma sweepZones_keepsState {cfg : Config} {now : ℚ} (zones : List Zone) :
    ∀ (zIdx : Nat) (a : Sweep),
      (sweepZones cfg now zIdx a zones).s.nextId = a.s.nextId := by
  induction zones with
  | nil => intro zIdx a; simp [sweepZones]
  | cons z rest ih =>
    intro zIdx a
    simp only [sweepZones]
    split
    · exact ih _ _
    · next zpos hz =>
      rw [ih _ _]
      exact (sweepObjs_keepsState _ _).2

lemma sweepZones_ids {cfg : Config} {now : ℚ} (zones : List Zone) :
    ∀ (zIdx : Nat) (a : Sweep),
      (sweepZones cfg now zIdx a zones).s.scannables.map (fun o => o.id)
        = a.s.scannables.map (fun o => o.id) := by
  induction zones with
  | nil => intro zIdx a; simp [sweepZones]
  | cons z rest ih =>
    intro zIdx a
    simp only [sweepZones]
    split
    · exact ih _ _
    · next zpos hz =>
      rw [ih _ _]
      show ((sweepObjs now cfg.scanCooldown zIdx zpos
        (z.radius.getD cfg.scanRadius) a a.s.scannables).2).map (fun o => o.id) = _
      exact sweepObjs_ids _ _

lemma getD_mem_of_lt {α : Type} (l : List α) (n : Nat) (d : α) (h : n < l.length) :
    l.getD n d ∈ l := by
  rw [List.getD_eq_getElem?_getD, List.getElem?_eq_getElem h]
  simp only [Option.getD_some]
  exact List.getElem_mem h

/-- A spawn appends at most one object, with a fresh id. -/
lemma spawn_append (env : Env) (hx hy hz : ℚ) (s : SysState) :
    ∃ news, (spawnRandomProductAt env hx hy hz s).scannables = s.scannables ++ news ∧
      (∀ n ∈ news, s.nextId ≤ n.id) ∧
      s.nextId ≤ (spawnRandomProductAt env hx hy hz s).nextId := by
  unfold spawnRandomProductAt
  split
  · exact ⟨[], by simp, by simp, le_refl _⟩
  · split
    · refine ⟨_, rfl, ?_, ?_⟩
      · intro n hn
        simp only [List.mem_singleton] at hn
        subst hn
        exact le_refl _
      · exact Nat.le_succ _
    · exact ⟨[], by simp, by simp, le_refl _⟩

lemma flushGo_append (env : Env) (rs : List RespawnReq) :
    ∀ (used : List (ℤ × ℤ × ℤ)) (s : SysState),
      ∃ news, (flushGo env used s rs).scannables = s.scannables ++ news ∧
        ∀ n ∈ news, s.nextId ≤ n.id := by
  induction rs with
  | nil => intro used s; exact ⟨[], by simp [flushGo], by simp⟩
  | cons r rest ih =>
    intro used s
    simp only [flushGo]
    split
    · exact ih _ _
    · obtain ⟨news0, h01, h02, h03⟩ := spawn_append env r.hx r.hy r.hz s
      obtain ⟨news1, h11, h12⟩ := ih (quantKey r :: used) (spawnRandomProductAt env r.hx r.hy r.hz s)
      refine ⟨news0 ++ news1, ?_, ?_⟩
      · rw [h11, h01, List.append_assoc]
      · intro n hn
        rcases List.mem_append.1 hn with h | h
        · exact h02 n h
        · exact le_trans h03 (h12 n h)

/-- The deduplication pass of the flush, in isolation: keep the first request
of each quantized key, drop the rest. -/
def dedupGo : List (ℤ × ℤ × ℤ) → List RespawnReq → List RespawnReq
  | _, [] => []
  | used, r :: rest =>
    if quantKey r ∈ used then dedupGo used rest
    else r :: dedupGo (quantKey r :: used) rest

/-- First-wins deduplication by quantized home slot. -/
def dedupByKey (rs : List RespawnReq) : List RespawnReq := dedupGo [] rs

lemma flushGo_eq_dedup (env : Env) (rs : List RespawnReq) :
    ∀ (used : List (ℤ × ℤ × ℤ)) (s : SysState),
      flushGo env used s rs
        = (dedupGo used rs).foldl
            (fun t r => spawnRandomProductAt env r.hx r.hy r.hz t) s := by
  induction rs with
  | nil => intro used s; rfl
  | cons r rest ih =>
    intro used s
    simp only [flushGo, dedupGo]
    split
    · exact ih _ _
    · rw [List.foldl_cons]
      exact ih _ _

/-- Under resolvable assets, a spawn creates exactly one trackable: home slot
as requested (independent of the draw), drawn productId and catalog scale,
lastScanTime -1, not scanned out, fresh id. -/
lemma spawn_spec (env : Env)
    (hg : ∀ d ∈ productCatalog, env.gltfOk d.assetKey = true)
    (hx hy hz : ℚ) (s : SysState) :
    (spawnRandomProductAt env hx hy hz s).scannables = s.scannables ++
      [{ id := s.nextId
         productId := (productCatalog.getD (s.draws s.drawIdx % productCatalog.length)
           ⟨"", "", 1⟩).productId
         lastScanTime := -1
         homeX := hx, homeY := hy, homeZ := hz
         pos := some ⟨hx, hy, hz⟩
         scannedOut := false
         scale := (productCatalog.getD (s.draws s.drawIdx % productCatalog.length)
           ⟨"", "", 1⟩).scale }] := by
  have hlen : productCatalog.length = 11 := rfl
  have hlt : s.draws s.drawIdx % productCatalog.length < productCatalog.length := by
    rw [hlen]
    exact Nat.mod_lt _ (by norm_num)
  have hmem := getD_mem_of_lt productCatalog
    (s.draws s.drawIdx % productCatalog.length) ⟨"", "", 1⟩ hlt
  have hok := hg _ hmem
  unfold spawnRandomProductAt
  rw [if_neg (by simp [productCatalog]), if_pos hok]

/-- The unit price scored for a productId (0 when absent from the table). -/
def priceOf (pid : String) : ℚ :=
  match productInfo pid with
  | some info => info.price
  | none => 0

/-- A sequence of honored sales, as folded by repeated recordSale calls. -/
def salesFold (s : SysState) (pids : List String) : SysState :=
  pids.foldl (fun t pid => recordSale pid t) s

lemma salesFold_spec (pids : List String) :
    ∀ s : SysState,
      (salesFold s pids).scannedCount = s.scannedCount + pids.length ∧
      (salesFold s pids).totalCartValue = s.totalCartValue + (pids.map priceOf).sum := by
  induction pids with
  | nil => intro s; simp [salesFold]
  | cons pid rest ih =>
    intro s
    obtain ⟨h1, h2⟩ := ih (recordSale pid s)
    constructor
    · show (salesFold (recordSale pid s) rest).scannedCount = _
      rw [h1]
      show s.scannedCount + 1 + rest.length = s.scannedCount + (rest.length + 1)
      omega
    · show (salesFold (recordSale pid s) rest).totalCartValue = _
      rw [h2]
      show s.totalCartValue + priceOf pid + (rest.map priceOf).sum = _
      rw [List.map_cons, List.sum_cons]
      ring

lemma scanState_count (pid : String) (s : SysState) :
    (recordSale pid (startIfNeeded s)).scannedCount = s.scannedCount + 1 := by
  unfold recordSale startIfNeeded
  split_ifs <;> simp

lemma timerPhase_stopped {delta : ℚ} {s : SysState} (h : s.timerRunning = false) :
    timerPhase delta s = (s, []) := by
  unfold timerPhase
  rw [h]
  simp

lemma timerPhase_live {delta : ℚ} {s : SysState} (hrun : s.timerRunning = true)
    (hpos : 0 < s.timeRemaining - delta) :
    (timerPhase delta s).1.timeRemaining = s.timeRemaining - delta ∧
    (timerPhase delta s).1.timerRunning = true := by
  unfold timerPhase
  rw [hrun]
  simp only [if_true]
  split
  · simp
  · rw [if_neg (not_le.2 hpos)]
    simp

lemma timerPhase_expiry {delta : ℚ} {s : SysState} (hrun : s.timerRunning = true)
    (hend : s.timeRemaining - delta ≤ 0) (hsh : s.roundShown = false) :
    timerPhase delta s =
      ({ s with
          timeRemaining := 0
          timerRunning := false
          roundShown := true
          roundEnded := true },
       [Ev.roundOver (decide (goalCartValue ≤ s.totalCartValue))
          s.scannedCount s.totalCartValue]) := by
  unfold timerPhase
  rw [hrun]
  simp only [if_true]
  rw [if_neg (by rintro ⟨_, _, _, h4⟩; exact absurd hend (not_le.2 h4)), if_pos hend]
  simp [showRoundComplete, hsh]

lemma evZone_some_not_roundOver {e : Ev} {k : Nat} (h : evZone e = some k) :
    isRoundOverEv e = false := by
  cases e <;> simp_all [evZone, isRoundOverEv]

lemma sweepZones_single (cfg : Config) (now : ℚ) (z : Zone) (zp : Vec3) (a : Sweep)
    (hzp : z.pos = some zp) :
    sweepZones cfg now 0 a [z]
      = installObjs (sweepObjs now cfg.scanCooldown 0 zp
          (z.radius.getD cfg.scanRadius) a a.s.scannables) := by
  simp only [sweepZones, hzp]

lemma flush_proj (env : Env) (s : SysState) (rs : List RespawnReq) :
    (flushRespawns env s rs).timeRemaining = s.timeRemaining ∧
    (flushRespawns env s rs).timerRunning = s.timerRunning ∧
    (flushRespawns env s rs).scannedCount = s.scannedCount ∧
    (flushRespawns env s rs).totalCartValue = s.totalCartValue := by
  have h := roundVars_flushRespawns env s rs
  simp only [roundVars, Prod.mk.injEq] at h
  tauto

lemma update_events_eq (env : Env) (cfg : Config) (delta now : ℚ) (zones : List Zone)
    (s : SysState) :
    (update env cfg delta now zones s).2
      = (timerPhase delta s).2
        ++ (sweepZones cfg now 0 (initSweep (timerPhase delta s).1) zones).events := rfl

lemma update_state_eq (env : Env) (cfg : Config) (delta now : ℚ) (zones : List Zone)
    (s : SysState) :
    (update env cfg delta now zones s).1
      = flushRespawns env
          (sweepZones cfg now 0 (initSweep (timerPhase delta s).1) zones).s
          (sweepZones cfg now 0 (initSweep (timerPhase delta s).1) zones).respawns := rfl

lemma update_scanIds_nodup (env : Env) (cfg : Config) (delta now : ℚ)
    (zones : List Zone) (s : SysState) :
    (scanIds (update env cfg delta now zones s).2).Nodup := by
  rw [update_events_eq, scanIds_append, scanIds_timerPhase, List.nil_append]
  exact (sweepZones_goodEv zones 0 (initSweep (timerPhase delta s).1)
    ⟨by simp [initSweep, scanIds], by simp [initSweep, scanIds]⟩).1

lemma update_zone_scans (env : Env) (cfg : Config) (delta now : ℚ)
    (zones : List Zone) (s : SysState) (j : Nat) :
    (update env cfg delta now zones s).2.countP (isScanOfZone j) ≤ 1 := by
  rw [update_events_eq, List.countP_append, timerPhase_no_zone_scan]
  obtain ⟨E, h1, h2, h3⟩ := sweepZones_events zones 0 (initSweep (timerPhase delta s).1)
  rw [h1]
  simpa [initSweep] using h3 j

lemma update_dropFree {env : Env} {cfg : Config} {delta now : ℚ}
    {zones : List Zone} {s : SysState} (hs : Inv s) (hd : 0 ≤ delta) :
    (update env cfg delta now zones s).2.countP isDroppedEv = 0 := by
  rw [update_events_eq, List.countP_append, timerPhase_no_dropped,
    sweepZones_dropFree zones 0 _ (inv_timerPhase hs hd)]
  simp [initSweep]

lemma update_scan_src (env : Env) (cfg : Config) (delta now : ℚ)
    (zones : List Zone) (s : SysState) (i : Nat)
    (hi : i ∈ scanIds (update env cfg delta now zones s).2) :
    ∃ o ∈ s.scannables, o.id = i := by
  rw [update_events_eq, scanIds_append, scanIds_timerPhase, List.nil_append] at hi
  rcases sweepZones_scan_src zones 0 _ i hi with h | ⟨o, ho, hid⟩
  · simp [initSweep, scanIds] at h
  · exact ⟨o, (timerPhase_keeps delta s).1 ▸ ho, hid⟩

lemma update_blocked (env : Env) (cfg : Config) (delta now : ℚ)
    (zones : List Zone) (s : SysState) (oid : Nat)
    (B : Scannable → Prop)
    (hB : ∀ (zpos : Vec3) (baseRadius : ℚ) (sids : List Nat) (o : Scannable), B o →
      eligible now cfg.scanCooldown zpos baseRadius sids o = false)
    (hobjs : ∀ o ∈ s.scannables, o.id = oid → B o) :
    oid ∉ scanIds (update env cfg delta now zones s).2 := by
  rw [update_events_eq, scanIds_append, scanIds_timerPhase, List.nil_append]
  refine sweepZones_blocked B hB oid zones 0 (initSweep (timerPhase delta s).1) ?_
    (by simp [initSweep, scanIds])
  intro o ho hid
  exact hobjs o ((timerPhase_keeps delta s).1 ▸ ho) hid

/-- C1: in every tick of the proximity sweep each scanner zone emits at most
one scan event (the first eligible candidate in object-iteration order
consumes the zone and breaks its inner search), an object matched by one zone
in a tick is matched by no other zone of the same tick (distinct scan-event
ids), and given two objects simultaneously eligible within one registered
zone, with the round gate open, exactly one scan event is emitted that
tick. -/
theorem C1_one_scan_per_zone (env : Env) (cfg : Config) (delta now : ℚ)
    (zones : List Zone) (s : SysState) :
    (∀ j : Nat, (update env cfg delta now zones s).2.countP (isScanOfZone j) ≤ 1) ∧
    (scanIds (update env cfg delta now zones s).2).Nodup ∧
    (∀ (z : Zone) (zp : Vec3) (o1 o2 : Scannable),
      zones = [z] → z.pos = some zp →
      o1 ∈ s.scannables → o2 ∈ s.scannables → o1 ≠ o2 →
      eligible now cfg.scanCooldown zp (z.radius.getD cfg.scanRadius) [] o1 = true →
      eligible now cfg.scanCooldown zp (z.radius.getD cfg.scanRadius) [] o2 = true →
      RoundOk (timerPhase delta s).1 →
      (update env cfg delta now zones s).2.countP isScanEv = 1) := by
  refine ⟨update_zone_scans env cfg delta now zones s,
    update_scanIds_nodup env cfg delta now zones s, ?_⟩
  intro z zp o1 o2 hzs hzp h1 h2 hne he1 he2 hok
  subst hzs
  rw [update_events_eq, List.countP_append, timerPhase_no_scan,
    sweepZones_single cfg now z zp _ hzp]
  have hex : ∃ o ∈ (initSweep (timerPhase delta s).1).s.scannables,
      eligible now cfg.scanCooldown zp (z.radius.getD cfg.scanRadius)
        (initSweep (timerPhase delta s).1).scannedIds o = true := by
    refine ⟨o1, ?_, he1⟩
    show o1 ∈ (timerPhase delta s).1.scannables
    rw [(timerPhase_keeps delta s).1]
    exact h1
  have h := @sweepObjs_oneScan now cfg.scanCooldown 0 zp (z.radius.getD cfg.scanRadius)
    ((initSweep (timerPhase delta s).1).s.scannables)
    (initSweep (timerPhase delta s).1) hok hex
  rw [show (installObjs (sweepObjs now cfg.scanCooldown 0 zp (z.radius.getD cfg.scanRadius)
      (initSweep (timerPhase delta s).1) (initSweep (timerPhase delta s).1).s.scannables)).events
    = (sweepObjs now cfg.scanCooldown 0 zp (z.radius.getD cfg.scanRadius)
      (initSweep (timerPhase delta s).1)
      (initSweep (timerPhase delta s).1).s.scannables).1.events from rfl]
  rw [h]
  simp [initSweep]

/-- C2: an object whose lastScanTimestamp t0 satisfies t0 at least 0 and
now minus t0 below scanCooldownSeconds is never the subject of a scan event
of the tick, even when position-eligible; an object with lastScanTimestamp
-1 is never blocked by the cooldown gate; and once the elapsed time reaches
the cooldown the gate no longer blocks. -/
theorem C2_cooldown_gate (env : Env) (cfg : Config) (delta now : ℚ)
    (zones : List Zone) (s : SysState) (oid : Nat)
    (hcb : ∀ o ∈ s.scannables, o.id = oid →
      0 ≤ o.lastScanTime ∧ now - o.lastScanTime < cfg.scanCooldown) :
    oid ∉ scanIds (update env cfg delta now zones s).2 ∧
    (∀ o : Scannable, o.lastScanTime = -1 →
      cooldownBlocked now cfg.scanCooldown o = false) ∧
    (∀ o : Scannable, cfg.scanCooldown ≤ now - o.lastScanTime →
      cooldownBlocked now cfg.scanCooldown o = false) := by
  refine ⟨?_, ?_, ?_⟩
  · refine update_blocked env cfg delta now zones s oid
      (fun o => 0 ≤ o.lastScanTime ∧ now - o.lastScanTime < cfg.scanCooldown) ?_ hcb
    intro zpos baseRadius sids o hBo
    have hcbt : cooldownBlocked now cfg.scanCooldown o = true := by
      unfold cooldownBlocked
      rw [decide_eq_true hBo.1, decide_eq_true hBo.2, Bool.and_self]
    unfold eligible
    rw [hcbt]
    simp
  · intro o h
    unfold cooldownBlocked
    rw [h, decide_eq_false (by norm_num : ¬(0:ℚ) ≤ -1), Bool.false_and]
  · intro o h
    unfold cooldownBlocked
    rw [decide_eq_false (not_lt.2 h), Bool.and_false]

/-- C6: recording a sale increments scannedCount by exactly one
unconditionally; a catalog-known itemId adds its unitPrice to cartTotal
while a missing itemId leaves cartTotal unchanged (contribution 0) though
the count still increments; consequently after N honored sales scannedCount
grows by N and cartTotal by the exact sum of the looked-up prices; and every
honored scan of the sweep records exactly one sale. -/
theorem C6_record_sale_semantics (s : SysState) (pid : String) :
    ((recordSale pid s).scannedCount = s.scannedCount + 1) ∧
    (∀ info : ProductInfo, productInfo pid = some info →
      (recordSale pid s).totalCartValue = s.totalCartValue + info.price) ∧
    (productInfo pid = none → (recordSale pid s).totalCartValue = s.totalCartValue) ∧
    (∀ pids : List String,
      (salesFold s pids).scannedCount = s.scannedCount + pids.length ∧
      (salesFold s pids).totalCartValue = s.totalCartValue + (pids.map priceOf).sum) ∧
    (∀ (zIdx : Nat) (o : Scannable) (a : Sweep),
      (scanAcc zIdx o a).s.scannedCount = a.s.scannedCount + 1) := by
  refine ⟨rfl, ?_, ?_, fun pids => salesFold_spec pids s,
    fun zIdx o a => scanState_count _ _⟩
  · intro info h
    simp [recordSale, h]
  · intro h
    simp [recordSale, h]

/-- C7: the respawn flush deduplicates queued requests by the quantized home
slot with first-wins semantics (a later request for the same quantized slot
is silently dropped), and for each honored slot exactly one trackable is
created at that very home slot regardless of the random draw, not retired,
with lastScanTimestamp -1, the drawn productId and the catalog scale of the
drawn item. -/
theorem C7_respawn_flush_dedup (env : Env)
    (hg : ∀ d ∈ productCatalog, env.gltfOk d.assetKey = true) :
    (∀ (used : List (ℤ × ℤ × ℤ)) (s : SysState) (rs : List RespawnReq),
      flushGo env used s rs = (dedupGo used rs).foldl
        (fun t r => spawnRandomProductAt env r.hx r.hy r.hz t) s) ∧
    (∀ r1 r2 : RespawnReq, quantKey r2 = quantKey r1 → dedupByKey [r1, r2] = [r1]) ∧
    (∀ (hx hy hz : ℚ) (s : SysState),
      (spawnRandomProductAt env hx hy hz s).scannables = s.scannables ++
        [{ id := s.nextId
           productId := (productCatalog.getD (s.draws s.drawIdx % productCatalog.length)
             ⟨"", "", 1⟩).productId
           lastScanTime := -1
           homeX := hx, homeY := hy, homeZ := hz
           pos := some ⟨hx, hy, hz⟩
           scannedOut := false
           scale := (productCatalog.getD (s.draws s.drawIdx % productCatalog.length)
             ⟨"", "", 1⟩).scale }]) := by
  refine ⟨fun used s rs => flushGo_eq_dedup env rs used s, ?_,
    fun hx hy hz s => spawn_spec env hg hx hy hz s⟩
  intro r1 r2 h
  simp [dedupByKey, dedupGo, h]

/-- C8: proximity detection of a tick ranges over the pre-tick object set
only (every scan event names a pre-tick object), respawns are applied only
after the sweep, and a newly created replacement (an object whose id no
pre-tick object carries) is never scanned in the tick that created it;
every post-tick object either descends from a pre-tick object or is a fresh
spawn with an id at or above the id supply, unscanned this tick. -/
theorem C8_detection_before_respawn (env : Env) (cfg : Config) (delta now : ℚ)
    (zones : List Zone) (s : SysState)
    (hid : ∀ o ∈ s.scannables, o.id < s.nextId) :
    (∀ i ∈ scanIds (update env cfg delta now zones s).2,
      ∃ o ∈ s.scannables, o.id = i) ∧
    (∀ o2 : Scannable, (∀ o ∈ s.scannables, o.id ≠ o2.id) →
      o2.id ∉ scanIds (update env cfg delta now zones s).2) ∧
    (∀ o2 ∈ (update env cfg delta now zones s).1.scannables,
      (∃ o ∈ s.scannables, o.id = o2.id) ∨
      (s.nextId ≤ o2.id ∧ o2.id ∉ scanIds (update env cfg delta now zones s).2)) := by
  refine ⟨fun i hi => update_scan_src env cfg delta now zones s i hi, ?_, ?_⟩
  · intro o2 hnew hmem
    obtain ⟨o, ho, hid2⟩ := update_scan_src env cfg delta now zones s o2.id hmem
    exact hnew o ho hid2
  · intro o2 ho2
    rw [update_state_eq] at ho2
    obtain ⟨news, hn1, hn2⟩ := flushGo_append env
      (sweepZones cfg now 0 (initSweep (timerPhase delta s).1) zones).respawns []
      (sweepZones cfg now 0 (initSweep (timerPhase delta s).1) zones).s
    rw [show flushRespawns env
        (sweepZones cfg now 0 (initSweep (timerPhase delta s).1) zones).s
        (sweepZones cfg now 0 (initSweep (timerPhase delta s).1) zones).respawns
      = flushGo env []
        (sweepZones cfg now 0 (initSweep (timerPhase delta s).1) zones).s
        (sweepZones cfg now 0 (initSweep (timerPhase delta s).1) zones).respawns
      from rfl, hn1] at ho2
    rcases List.mem_append.1 ho2 with h | h
    · left
      have hidmap : o2.id ∈ ((sweepZones cfg now 0 (initSweep (timerPhase delta s).1)
          zones).s.scannables).map (fun o => o.id) :=
        List.mem_map.2 ⟨o2, h, rfl⟩
      rw [sweepZones_ids] at hidmap
      have h2 : o2.id ∈ ((timerPhase delta s).1.scannables).map (fun o => o.id) := hidmap
      rw [(timerPhase_keeps delta s).1] at h2
      obtain ⟨o, ho, hoid⟩ := List.mem_map.1 h2
      exact ⟨o, ho, hoid⟩
    · right
      have hge : (sweepZones cfg now 0 (initSweep (timerPhase delta s).1)
          zones).s.nextId ≤ o2.id := hn2 o2 h
      rw [sweepZones_keepsState] at hge
      have hge2 : s.nextId ≤ o2.id := by
        rw [show (initSweep (timerPhase delta s).1).s.nextId
          = (timerPhase delta s).1.nextId from rfl,
          (timerPhase_keeps delta s).2.1] at hge
        exact hge
      refine ⟨hge2, ?_⟩
      intro hmem
      obtain ⟨o, ho, hid2⟩ := update_scan_src env cfg delta now zones s o2.id hmem
      have := hid o ho
      omega

/-- C9: an object position-qualifies for a zone exactly when the squared
distance of the world positions is at most the square of the nominal radius
widened by the 1.1 tolerance factor, the boundary case of equality
qualifying; and a retired (scanned-out) object is excluded from the
proximity pass entirely: no scan event of any tick names it. -/
theorem C9_radius_and_retired (env : Env) (cfg : Config) (delta now : ℚ)
    (zones : List Zone) (s : SysState) (oid : Nat) :
    (∀ (zpos p : Vec3) (baseRadius : ℚ),
      posQualifies zpos baseRadius p = true ↔
        distSq zpos p ≤ (baseRadius * (11/10))^2) ∧
    (∀ (zpos p : Vec3) (baseRadius : ℚ),
      distSq zpos p = (baseRadius * (11/10))^2 →
        posQualifies zpos baseRadius p = true) ∧
    ((∀ o ∈ s.scannables, o.id = oid → o.scannedOut = true) →
      oid ∉ scanIds (update env cfg delta now zones s).2) := by
  have hiff : ∀ (zpos p : Vec3) (baseRadius : ℚ),
      posQualifies zpos baseRadius p = true ↔
        distSq zpos p ≤ (baseRadius * (11/10))^2 := by
    intro zpos p r
    rw [pow_two]
    unfold posQualifies
    rw [Bool.not_eq_true', decide_eq_false_iff_not]
    exact not_lt
  refine ⟨hiff, ?_, ?_⟩
  · intro zpos p r h
    exact (hiff zpos p r).2 (le_of_eq h)
  · intro hobjs
    refine update_blocked env cfg delta now zones s oid
      (fun o => o.scannedOut = true) ?_ hobjs
    intro zpos baseRadius sids o hBo
    unfold eligible
    rw [hBo]
    simp

/-- C10: in every reachable between-tick state, a stopped clock at zero
implies the round-ended flag is set; consequently the silent-discard branch
of the scan handler (clock exhausted but round not flagged ended) never
fires in any tick taken from a reachable state: no eligible scan is dropped
by an inconsistent combination of the round booleans. -/
theorem C10_no_silent_discard (env : Env) (cfg : Config) (s : SysState)
    (hr : Reachable env cfg s) :
    (s.timerRunning = false → s.timeRemaining = 0 → s.roundEnded = true) ∧
    (∀ (delta now : ℚ) (zones : List Zone) (ps : Nat → Option Vec3), 0 ≤ delta →
      (update env cfg delta now zones (setPositions ps s)).2.countP isDroppedEv
        = 0) := by
  refine ⟨?_, ?_⟩
  · intro h1 h2
    exact (reachable_inv hr).stopped_ended h1 (le_of_eq h2)
  · intro delta now zones ps hd
    exact update_dropFree (inv_setPositions (reachable_inv hr) ps) hd

/-- C3: when the clock of a reachable Running state is exhausted by the
delta of a tick, the timer section transitions the round to Ended
(clock clamped at 0 and stopped, round flagged ended) with outcome
won equal to cartTotal at least goalValue, the tick emits exactly that one
end-of-round notification with the final tallies, and invoking the
zero-crossing handler showRoundComplete twice in succession neither
re-fires the notification nor changes the state again. -/
theorem C3_round_end_fires_once (env : Env) (cfg : Config) (delta : ℚ)
    (s : SysState) (hr : Reachable env cfg s) (hrun : s.timerRunning = true)
    (hend : s.timeRemaining - delta ≤ 0) :
    ((timerPhase delta s).1.roundEnded = true ∧
     (timerPhase delta s).1.timerRunning = false ∧
     (timerPhase delta s).1.timeRemaining = 0) ∧
    (∀ (t2 : ℚ) (zones : List Zone) (ps : Nat → Option Vec3),
      (update env cfg delta t2 zones (setPositions ps s)).2.filter isRoundOverEv
        = [Ev.roundOver (decide (goalCartValue ≤ s.totalCartValue))
            s.scannedCount s.totalCartValue]) ∧
    (∀ t : SysState, showRoundComplete (showRoundComplete t).1
      = ((showRoundComplete t).1, [])) := by
  have hsh : s.roundShown = false := (reachable_inv hr).run_not_shown hrun
  have htp := timerPhase_expiry hrun hend hsh
  refine ⟨?_, ?_, ?_⟩
  · rw [htp]
    exact ⟨rfl, rfl, rfl⟩
  · intro t2 zones ps
    have hrun2 : (setPositions ps s).timerRunning = true := hrun
    have hend2 : (setPositions ps s).timeRemaining - delta ≤ 0 := hend
    have hsh2 : (setPositions ps s).roundShown = false := hsh
    have htp2 := timerPhase_expiry hrun2 hend2 hsh2
    rw [update_events_eq, List.filter_append]
    have hsw : (sweepZones cfg t2 0
        (initSweep (timerPhase delta (setPositions ps s)).1) zones).events.filter
          isRoundOverEv = [] := by
      obtain ⟨E, h1, h2, h3⟩ := sweepZones_events zones 0
        (initSweep (timerPhase delta (setPositions ps s)).1)
      rw [h1, List.filter_append,
        show (initSweep (timerPhase delta (setPositions ps s)).1).events
          = ([] : List Ev) from rfl]
      simp only [List.filter_nil, List.nil_append]
      rw [List.filter_eq_nil_iff]
      intro e he hro
      obtain ⟨k, hk, _⟩ := h2 e he
      rw [evZone_some_not_roundOver hk] at hro
      exact absurd hro (by simp)
    rw [hsw, htp2]
    simp [isRoundOverEv, setPositions]
  · intro t
    by_cases h : t.roundShown = true <;> simp [showRoundComplete, h]

/-- C4: a position- and cooldown-eligible scan arriving while the round is
Ended (clock stopped at zero, round flagged ended) first performs the full
reset (scannedCount 0, cartTotal 0, clock at roundDurationSeconds, warning
flag cleared, trackables untouched by the reset) and then that same scan is
processed as the first scan of the new round rather than dropped:
immediately after the tick the clock is running at full duration,
scannedCount is 1 and exactly one scan event was emitted. -/
theorem C4_scan_restarts_round (env : Env) (cfg : Config) (delta now : ℚ)
    (z : Zone) (zp : Vec3) (s : SysState)
    (hE : s.roundEnded = true) (hT : s.timerRunning = false)
    (hTr : s.timeRemaining ≤ 0) (hzp : z.pos = some zp)
    (hq : ∃ o ∈ s.scannables,
      eligible now cfg.scanCooldown zp (z.radius.getD cfg.scanRadius) [] o = true) :
    ((resetRound s).scannedCount = 0 ∧ (resetRound s).totalCartValue = 0 ∧
     (resetRound s).timeRemaining = gameDurationSeconds ∧
     (resetRound s).timerWarningPlayed = false ∧
     (resetRound s).scannables = s.scannables) ∧
    (update env cfg delta now [z] s).1.timerRunning = true ∧
    (update env cfg delta now [z] s).1.scannedCount = 1 ∧
    (update env cfg delta now [z] s).1.timeRemaining = gameDurationSeconds ∧
    (update env cfg delta now [z] s).2.countP isScanEv = 1 := by
  have htp : timerPhase delta s = (s, []) := timerPhase_stopped hT
  have hres := @sweepObjs_restart now cfg.scanCooldown 0 zp
    (z.radius.getD cfg.scanRadius) ((initSweep s).s.scannables) (initSweep s)
    hT hTr hE hq
  have hA : (sweepZones cfg now 0 (initSweep (timerPhase delta s).1) [z]).s.timerRunning
        = true ∧
      (sweepZones cfg now 0 (initSweep (timerPhase delta s).1) [z]).s.scannedCount = 1 ∧
      (sweepZones cfg now 0 (initSweep (timerPhase delta s).1) [z]).s.timeRemaining
        = gameDurationSeconds := by
    rw [htp, sweepZones_single cfg now z zp _ hzp]
    exact ⟨hres.1, hres.2.1, hres.2.2⟩
  have hok : RoundOk (timerPhase delta s).1 := by
    rintro ⟨_, _, h3⟩
    have h3t : s.roundEnded = false := by rw [htp] at h3; exact h3
    rw [hE] at h3t
    exact absurd h3t (by simp)
  refine ⟨⟨rfl, rfl, rfl, rfl, rfl⟩, ?_, ?_, ?_, ?_⟩
  · rw [update_state_eq, (flush_proj _ _ _).2.1]
    exact hA.1
  · rw [update_state_eq, (flush_proj _ _ _).2.2.1]
    exact hA.2.1
  · rw [update_state_eq, (flush_proj _ _ _).1]
    exact hA.2.2
  · rw [update_events_eq, List.countP_append, timerPhase_no_scan,
      sweepZones_single cfg now z zp _ hzp]
    have hex : ∃ o ∈ (initSweep (timerPhase delta s).1).s.scannables,
        eligible now cfg.scanCooldown zp (z.radius.getD cfg.scanRadius)
          (initSweep (timerPhase delta s).1).scannedIds o = true := by
      rw [htp]
      exact hq
    have h := @sweepObjs_oneScan now cfg.scanCooldown 0 zp
      (z.radius.getD cfg.scanRadius) ((initSweep (timerPhase delta s).1).s.scannables)
      (initSweep (timerPhase delta s).1) hok hex
    rw [show (installObjs (sweepObjs now cfg.scanCooldown 0 zp
        (z.radius.getD cfg.scanRadius) (initSweep (timerPhase delta s).1)
        (initSweep (timerPhase delta s).1).s.scannables)).events
      = (sweepObjs now cfg.scanCooldown 0 zp (z.radius.getD cfg.scanRadius)
        (initSweep (timerPhase delta s).1)
        (initSweep (timerPhase delta s).1).s.scannables).1.events from rfl]
    rw [h]
    simp [initSweep]

/-- C5 (amended): in every reachable state, timeRemaining lies in the
closed interval from 0 to roundDurationSeconds, an Idle round (not yet
started) has scannedCount 0 and cartTotal 0, and a Running clock is
strictly positive; across a tick taken while Running, timeRemaining does
not increase unless the clock expires during that very tick
(timeRemaining at most deltaTime) and an eligible scan of the same tick
immediately restarts a fresh round, leaving the clock running at full
duration. -/
theorem C5_running_invariants (env : Env) (cfg : Config) (s : SysState)
    (hr : Reachable env cfg s) :
    (0 ≤ s.timeRemaining ∧ s.timeRemaining ≤ gameDurationSeconds) ∧
    (s.gameStarted = false → s.scannedCount = 0 ∧ s.totalCartValue = 0) ∧
    (s.timerRunning = true → 0 < s.timeRemaining) ∧
    (∀ (delta now : ℚ) (zones : List Zone) (ps : Nat → Option Vec3),
      0 ≤ delta → s.timerRunning = true →
      (update env cfg delta now zones (setPositions ps s)).1.timeRemaining
          ≤ s.timeRemaining ∨
      (s.timeRemaining ≤ delta ∧
       (update env cfg delta now zones (setPositions ps s)).1.timeRemaining
          = gameDurationSeconds ∧
       (update env cfg delta now zones (setPositions ps s)).1.timerRunning
          = true)) := by
  have hinv := reachable_inv hr
  refine ⟨⟨hinv.tr_nonneg, hinv.tr_le⟩,
    fun hg => ⟨(hinv.idle_fresh hg).1, (hinv.idle_fresh hg).2.1⟩,
    hinv.run_pos, ?_⟩
  intro delta now zones ps hd hrun
  by_cases hlt : 0 < s.timeRemaining - delta
  · left
    have hrun2 : (setPositions ps s).timerRunning = true := hrun
    have hl := timerPhase_live hrun2 hlt
    rw [update_state_eq, (flush_proj _ _ _).1]
    have hsw := @sweepZones_running cfg now zones 0
      (initSweep (timerPhase delta (setPositions ps s)).1) hl.2
    rw [hsw.2,
      show (initSweep (timerPhase delta (setPositions ps s)).1).s.timeRemaining
        = (timerPhase delta (setPositions ps s)).1.timeRemaining from rfl,
      hl.1]
    show s.timeRemaining - delta ≤ s.timeRemaining
    linarith
  · push_neg at hlt
    have hrun2 : (setPositions ps s).timerRunning = true := hrun
    have hsh2 : (setPositions ps s).roundShown = false := hinv.run_not_shown hrun
    have hend2 : (setPositions ps s).timeRemaining - delta ≤ 0 := hlt
    have htp := timerPhase_expiry hrun2 hend2 hsh2
    rcases @sweepZones_tr cfg now zones 0
        (initSweep (timerPhase delta (setPositions ps s)).1) with h | ⟨h1, h2⟩
    · left
      rw [update_state_eq, (flush_proj _ _ _).1, h, htp]
      exact hinv.tr_nonneg
    · right
      refine ⟨by linarith, ?_, ?_⟩
      · rw [update_state_eq, (flush_proj _ _ _).1]
        exact h1
      · rw [update_state_eq, (flush_proj _ _ _).2.1]
        exact h2

/-- Environment with every GLTF asset resolvable. -/
def envAll : Env := ⟨fun _ => true⟩

/-- A red apple sitting on the scan pad at the origin. -/
def obj0 : Scannable := ⟨0, "redApple", -1, 0, 0, 0, some ⟨0, 0, 0⟩, false, 28/100⟩

/-- A pear sitting on the scan pad at the origin. -/
def obj1 : Scannable := ⟨1, "pear", -1, 0, 0, 0, some ⟨0, 0, 0⟩, false, 10/100⟩

/-- One scanner zone at the origin with the default radius. -/
def zone0 : Zone := ⟨none, some ⟨0, 0, 0⟩⟩

/-- Startup state with the two objects and a constant random stream. -/
def st0 : SysState := initState [obj0, obj1] 2 (fun _ => 0)

/-- Host repositioning that keeps every object at the origin. -/
def psHome : Nat → Option Vec3 := fun _ => some ⟨0, 0, 0⟩

/-- After a first tick in which the apple is scanned: round running at full
duration, one item scored. -/
def stA : SysState := (update envAll defaultConfig 0 0 [zone0] (setPositions psHome st0)).1

/-- After a second, zone-free tick of 29.5 seconds: round running with half a
second left. -/
def stB : SysState := (update envAll defaultConfig (59/2) 1 [] (setPositions psHome stA)).1

lemma reachable_st0 : Reachable envAll defaultConfig st0 := Reachable.init _ _ _

lemma reachable_stA : Reachable envAll defaultConfig stA :=
  Reachable.tick st0 0 0 [zone0] psHome reachable_st0 (le_refl 0)

lemma reachable_stB : Reachable envAll defaultConfig stB :=
  Reachable.tick stA (59/2) 1 [] psHome reachable_stA (by norm_num)

/-- C5 counterexample: from the reachable Running state stB with half a
second on the clock, a one-second tick with an eligible object in the zone
ends the round and immediately restarts it, raising timeRemaining from one
half to thirty: timeRemaining can increase across a tick taken while
Running, so the non-increase conjunct of the claim fails as stated. -/
theorem C5_clock_can_increase_while_running :
    stB.timerRunning = true ∧ (0:ℚ) ≤ 1 ∧
    Reachable envAll defaultConfig stB ∧
    stB.timeRemaining <
      (update envAll defaultConfig 1 2 [zone0]
        (setPositions psHome stB)).1.timeRemaining := by
  refine ⟨by with_unfolding_all decide, by norm_num, reachable_stB, ?_⟩
  with_unfolding_all decide

/-- C1 witness at a concrete tick: one zone, two eligible objects, exactly
one scan event. -/
theorem C1_witness :
    (update envAll defaultConfig 0 0 [zone0] st0).2.countP (isScanOfZone 0) ≤ 1 ∧
    (scanIds (update envAll defaultConfig 0 0 [zone0] st0).2).Nodup ∧
    (update envAll defaultConfig 0 0 [zone0] st0).2.countP isScanEv = 1 := by
  have h := C1_one_scan_per_zone envAll defaultConfig 0 0 [zone0] st0
  exact ⟨h.1 0, h.2.1,
    h.2.2 zone0 ⟨0, 0, 0⟩ obj0 obj1 rfl rfl
      (by with_unfolding_all decide) (by with_unfolding_all decide)
      (by with_unfolding_all decide) (by with_unfolding_all decide)
      (by with_unfolding_all decide) (by with_unfolding_all decide)⟩

/-- C2 witness: the apple scanned at time 0 is blocked at time one half with
the default cooldown of three quarters, while a never-scanned object and one
whose cooldown elapsed exactly are not blocked. -/
theorem C2_witness :
    (0 ∉ scanIds (update envAll defaultConfig 0 (1/2) [zone0] stA).2) ∧
    cooldownBlocked (1/2) defaultConfig.scanCooldown obj1 = false ∧
    cooldownBlocked (1/2) defaultConfig.scanCooldown
      { obj0 with lastScanTime := -(1/4) } = false := by
  have h := C2_cooldown_gate envAll defaultConfig 0 (1/2) [zone0] stA 0
    (by with_unfolding_all decide)
  exact ⟨h.1, h.2.1 obj1 rfl, h.2.2 _ (by norm_num [defaultConfig, obj0])⟩

/-- C3 witness: the expiring tick from stB fires the lose notification with
the final tallies exactly once, and showRoundComplete is idempotent. -/
theorem C3_witness :
    ((timerPhase 1 stB).1.roundEnded = true ∧
     (timerPhase 1 stB).1.timerRunning = false ∧
     (timerPhase 1 stB).1.timeRemaining = 0) ∧
    ((update envAll defaultConfig 1 2 [zone0] (setPositions psHome stB)).2.filter
        isRoundOverEv
      = [Ev.roundOver (decide (goalCartValue ≤ stB.totalCartValue))
          stB.scannedCount stB.totalCartValue]) ∧
    showRoundComplete (showRoundComplete st0).1 = ((showRoundComplete st0).1, []) := by
  have h := C3_round_end_fires_once envAll defaultConfig 1 stB reachable_stB
    (by with_unfolding_all decide) (by with_unfolding_all decide)
  exact ⟨h.1, h.2.1 2 [zone0] psHome, h.2.2 st0⟩

/-- An ended-round state for the C4 witness. -/
def stE : SysState :=
  { initState [obj0, obj1] 2 (fun _ => 0) with
      timeRemaining := 0
      roundEnded := true
      roundShown := true }

/-- C4 witness: a scan arriving in the ended round stE restarts the round
and is scored as its first scan. -/
theorem C4_witness :
    (update envAll defaultConfig 0 0 [zone0] stE).1.timerRunning = true ∧
    (update envAll defaultConfig 0 0 [zone0] stE).1.scannedCount = 1 ∧
    (update envAll defaultConfig 0 0 [zone0] stE).1.timeRemaining
      = gameDurationSeconds ∧
    (update envAll defaultConfig 0 0 [zone0] stE).2.countP isScanEv = 1 := by
  have h := C4_scan_restarts_round envAll defaultConfig 0 0 zone0 ⟨0, 0, 0⟩ stE
    rfl rfl (le_refl 0) rfl
    ⟨obj0, by with_unfolding_all decide, by with_unfolding_all decide⟩
  exact ⟨h.2.1, h.2.2.1, h.2.2.2.1, h.2.2.2.2⟩

/-- C5 witness: the amended statement applied at the reachable state stB and
the restarting tick. -/
theorem C5_witness :
    (0 ≤ stB.timeRemaining ∧ stB.timeRemaining ≤ gameDurationSeconds) ∧
    ((update envAll defaultConfig 1 2 [zone0]
        (setPositions psHome stB)).1.timeRemaining ≤ stB.timeRemaining ∨
     (stB.timeRemaining ≤ 1 ∧
      (update envAll defaultConfig 1 2 [zone0]
        (setPositions psHome stB)).1.timeRemaining = gameDurationSeconds ∧
      (update envAll defaultConfig 1 2 [zone0]
        (setPositions psHome stB)).1.timerRunning = true)) := by
  have h := C5_running_invariants envAll defaultConfig stB reachable_stB
  exact ⟨h.1, h.2.2.2 1 2 [zone0] psHome (by norm_num)
    (by with_unfolding_all decide)⟩

/-- C6 witness: a known item scores its price, an unknown item scores zero
while still counting, and three sales accumulate the exact sum. -/
theorem C6_witness :
    (recordSale "redApple" st0).scannedCount = st0.scannedCount + 1 ∧
    (recordSale "redApple" st0).totalCartValue = st0.totalCartValue + 99/100 ∧
    (recordSale "mysteryItem" st0).totalCartValue = st0.totalCartValue ∧
    (salesFold st0 ["redApple", "industrialShoe", "fleeceJacket"]).scannedCount
      = st0.scannedCount + 3 ∧
    (salesFold st0 ["redApple", "industrialShoe", "fleeceJacket"]).totalCartValue
      = st0.totalCartValue
        + (["redApple", "industrialShoe", "fleeceJacket"].map priceOf).sum := by
  have h1 := C6_record_sale_semantics st0 "redApple"
  have h2 := C6_record_sale_semantics st0 "mysteryItem"
  exact ⟨h1.1, h1.2.1 ⟨"Red Apple", 99/100⟩ (by with_unfolding_all rfl),
    h2.2.2.1 (by with_unfolding_all rfl),
    (h1.2.2.2.1 ["redApple", "industrialShoe", "fleeceJacket"]).1,
    (h1.2.2.2.1 ["redApple", "industrialShoe", "fleeceJacket"]).2⟩

/-- C7 witness: a concrete spawn at slot (1, 2, 3) with the constant random
stream creates exactly the red apple at that slot, and two queued respawns
for the same quantized slot dedup to the first. -/
theorem C7_witness :
    (spawnRandomProductAt envAll 1 2 3 st0).scannables = st0.scannables ++
      [{ id := 2
         productId := "redApple"
         lastScanTime := -1
         homeX := 1, homeY := 2, homeZ := 3
         pos := some ⟨1, 2, 3⟩
         scannedOut := false
         scale := 28/100 }] ∧
    dedupByKey [(⟨1, 2, 3⟩ : RespawnReq), ⟨1, 2, 3⟩] = [⟨1, 2, 3⟩] := by
  have h := C7_respawn_flush_dedup envAll (fun d _ => rfl)
  constructor
  · rw [h.2.2 1 2 3 st0]
    with_unfolding_all rfl
  · exact h.2.1 ⟨1, 2, 3⟩ ⟨1, 2, 3⟩ rfl

/-- The replacement object spawned during the first witness tick. -/
def spawn0 : Scannable :=
  { id := 2, productId := "redApple", lastScanTime := -1, homeX := 0, homeY := 0,
    homeZ := 0, pos := some ⟨0, 0, 0⟩, scannedOut := false, scale := 28/100 }

/-- C8 witness: the scan of the first tick names a pre-tick object, and the
freshly spawned replacement is not scanned in that tick. -/
theorem C8_witness :
    (∃ o ∈ st0.scannables, o.id = 0) ∧
    (2 : Nat) ∉ scanIds (update envAll defaultConfig 0 0 [zone0] st0).2 := by
  have h := C8_detection_before_respawn envAll defaultConfig 0 0 [zone0] st0
    (by with_unfolding_all decide)
  exact ⟨h.1 0 (by with_unfolding_all decide),
    h.2.1 spawn0 (by with_unfolding_all decide)⟩

/-- C9 witness: the exact boundary point at distance radius times 1.1
qualifies, and the retired apple of stA is never scanned even after its
cooldown elapsed. -/
theorem C9_witness :
    posQualifies ⟨0, 0, 0⟩ (1/4) ⟨11/40, 0, 0⟩ = true ∧
    (0 : Nat) ∉ scanIds (update envAll defaultConfig 0 5 [zone0] stA).2 := by
  have h := C9_radius_and_retired envAll defaultConfig 0 5 [zone0] stA 0
  exact ⟨h.2.1 ⟨0, 0, 0⟩ ⟨11/40, 0, 0⟩ (1/4) (by norm_num [distSq]),
    h.2.2 (by with_unfolding_all decide)⟩

/-- C10 witness: the restarting tick from stB drops no eligible scan. -/
theorem C10_witness :
    (update envAll defaultConfig 1 2 [zone0] (setPositions psHome stB)).2.countP
      isDroppedEv = 0 :=
  (C10_no_silent_discard envAll defaultConfig stB reachable_stB).2 1 2 [zone0]
    psHome (by norm_num)

end ShoppingSim
